import Mathlib

/-!
# Articles service: domain constructor, application service, HTTP adapter, storage adapter

A shallow embedding of the Go packages `internal/domain`, `internal/usecase`,
`internal/adapter/http`, `internal/adapter/storage/postgres` and `internal/server`.

Conventions of the embedding.

* A Go `string` is a Lean `String`, a sequence of Unicode code points; `len([]rune(s))` is
  `runeLen s`, the number of code points, and `len(s)` is `String.utf8ByteSize`.
* A Go `int64` is an `Int`; the only place where its range matters is `strconv.ParseInt`.
* A Go `error` is `Option GoError`, `none` being `nil`.
* A Go function returning `(Article, error)` returns the pair `Article × Option GoError`:
  both components are kept, as in Go.
* Effects (calls into the repository, `log.Printf`) are explicit state passing over `World`,
  which also keeps the record of the calls made.
* Time is in nanoseconds. A `context.Context` carries the time left until its deadline and the
  store the time it takes to answer; both, and the reachability of the store, may differ from
  one call to the next.
* What `c.JSON(code, obj)` writes is the pair of `code` and `obj`; the encoding of `obj` as JSON
  text, and the decoding of a request body, belong to the web framework and are not embedded.
-/

set_option autoImplicit false

/-! ## The standard library functions used by the sources -/

namespace unicode

/-- Go `unicode.IsSpace`: the Latin-1 spaces `\t \n \v \f \r`, space, U+0085, U+00A0, and the
other code points with the Unicode `White_Space` property. -/
def IsSpace (r : Char) : Bool :=
  let n := r.toNat
  (0x09 ≤ n && n ≤ 0x0D) || n == 0x20 || n == 0x85 || n == 0xA0 || n == 0x1680 ||
  (0x2000 ≤ n && n ≤ 0x200A) || n == 0x2028 || n == 0x2029 || n == 0x202F ||
  n == 0x205F || n == 0x3000

end unicode

namespace strings

/-- Go `strings.TrimLeftFunc(s, unicode.IsSpace)` on the code points of `s`. -/
def trimLeftSpace (rs : List Char) : List Char :=
  rs.dropWhile unicode.IsSpace

/-- Go `strings.TrimRightFunc(s, unicode.IsSpace)` on the code points of `s`. -/
def trimRightSpace (rs : List Char) : List Char :=
  (rs.reverse.dropWhile unicode.IsSpace).reverse

/-- Go `strings.TrimSpace`: the slice of `s` with all leading and trailing white space
(as defined by `unicode.IsSpace`) removed. -/
def TrimSpace (s : String) : String :=
  ⟨trimRightSpace (trimLeftSpace s.data)⟩

end strings

/-- Go `len([]rune(s))`: the number of code points of `s`. -/
def runeLen (s : String) : Nat :=
  s.data.length

/-! ## Errors -/

/-- A Go error value.

* `new id msg` is the value of one `errors.New(msg)` call; `id` stands for the pointer, so two
  values are the same error exactly when their `id`s agree.
* `wrap msg inner` is a wrapper with message `msg` whose `Unwrap()` is `inner`, as built by
  `fmt.Errorf` with one `%w` verb.
* `join a b` is an error wrapping both `a` and `b` (`Unwrap() []error`), as built by
  `errors.Join(a, b)`. -/
inductive GoError where
  | new (id : Nat) (msg : String)
  | wrap (msg : String) (inner : GoError)
  | join (a b : GoError)
  deriving DecidableEq, Repr

namespace GoError

/-- The `Error()` method. -/
def Error : GoError → String
  | new _ msg => msg
  | wrap msg _ => msg
  | join a b => a.Error ++ "\n" ++ b.Error

/-- Interface equality `err == target` for a target made by `errors.New`: the same pointer. -/
def same : GoError → GoError → Bool
  | new i _, new j _ => i == j
  | _, _ => false

/-- Whether the error wraps at most one error at every level: an `errors.New` value, or wrappers
with one `%w` around one. Every error that the sources build is of this kind. -/
def single : GoError → Bool
  | new _ _ => true
  | wrap _ inner => single inner
  | join _ _ => false

end GoError

namespace errors

/-- Go `errors.Is(err, target)` for a non-nil `err` and a target made by `errors.New`, as in every
call of the sources: walk the tree of wrapped errors, depth first, and report whether some
error in it is `target`. -/
def Is : GoError → GoError → Bool
  | e@(GoError.new _ _), target => e.same target
  | GoError.wrap _ inner, target => Is inner target
  | GoError.join a b, target => Is a target || Is b target

end errors

namespace fmt

/-- Go `fmt.Errorf(pfx + "%w", err)`: the message is `pfx` followed by `err.Error()`, and the
result unwraps to `err`. -/
def Errorf_w (pfx : String) (err : GoError) : GoError :=
  GoError.wrap (pfx ++ err.Error) err

end fmt

/-! ## internal/domain -/

namespace time

/-- A `time.Time`, as the number of nanoseconds since the zero instant
(January 1, year 1, 00:00:00 UTC). The zero value of the type is that instant. -/
structure Time where
  nanos : Int
  deriving DecidableEq, Repr

/-- The zero value of `time.Time`. -/
def Time.zero : Time := ⟨0⟩

/-- Go `Time.IsZero`. -/
def Time.IsZero (t : Time) : Bool := t.nanos == 0

end time

namespace domain

/-- Go `MaxTitleLength`. -/
def MaxTitleLength : Nat := 140

/-- Go `domain.Article`. -/
structure Article where
  ID : Int
  Title : String
  CreatedAt : time.Time
  deriving DecidableEq, Repr

/-- The zero value `Article{}`. -/
def Article.zero : Article := ⟨0, "", time.Time.zero⟩

/-- Go `ErrArticleNotFound`. -/
def ErrArticleNotFound : GoError := GoError.new 0 "article not found"
/-- Go `ErrInvalidID`. -/
def ErrInvalidID : GoError := GoError.new 1 "id must be a positive integer"
/-- Go `ErrInvalidTitle`. -/
def ErrInvalidTitle : GoError := GoError.new 2 "title is required"
/-- Go `ErrTitleTooLong`. -/
def ErrTitleTooLong : GoError := GoError.new 3 "title must be at most 140 characters"

/-- Go `domain.NewArticle`. -/
def NewArticle (title : String) : Article × Option GoError :=
  let normalized := strings.TrimSpace title
  if normalized = "" then
    (Article.zero, some ErrInvalidTitle)
  else if runeLen normalized > MaxTitleLength then
    (Article.zero, some ErrTitleTooLong)
  else
    ({ Article.zero with Title := normalized }, none)

end domain

namespace context

/-- Go `context.DeadlineExceeded`. -/
def DeadlineExceeded : GoError := GoError.new 200 "context deadline exceeded"

/-- Go `context.Canceled`. -/
def Canceled : GoError := GoError.new 201 "context canceled"

/-- A `context.Context` as a callee finds it when a call starts: the value of `ctx.Err()`, nil
while the context is live, `Canceled` or `DeadlineExceeded` once it is done; and the time that
is left until its deadline, in nanoseconds, `none` for a context without deadline. The same Go
context is a different value of this type at a later call: more of its time has run out, or it
has been cancelled. -/
structure Context where
  err : Option GoError
  remaining : Option Nat
  deriving DecidableEq, Repr

/-- Go `context.Background()`: never done, no deadline. -/
def Background : Context := ⟨none, none⟩

/-- Go `context.WithTimeout(ctx, d)`: the deadline of the derived context is the earlier of the
deadline of its parent and `d` from now. It is done when its parent is, and done at once with
`DeadlineExceeded` when no time is left. -/
def WithTimeout (ctx : Context) (d : Nat) : Context :=
  let left : Nat :=
    match ctx.remaining with
    | none => d
    | some r => min r d
  { err :=
      match ctx.err with
      | some e => some e
      | none => if left = 0 then some DeadlineExceeded else none,
    remaining := some left }

/-- Whether the deadline of the context passes before a call that takes `d` nanoseconds
returns. -/
def Context.expiresWithin (ctx : Context) (d : Nat) : Bool :=
  match ctx.remaining with
  | none => false
  | some r => decide (r ≤ d)

end context

namespace domain

/-- Go interface `domain.ArticleRepository`. An implementation keeps its state in `σ`; a method
takes the state and returns its two Go results together with the next state. -/
structure ArticleRepository (σ : Type) where
  Save : context.Context → Article → σ → (Article × Option GoError) × σ
  GetByID : context.Context → Int → σ → (Article × Option GoError) × σ

end domain

/-! ## The world: repository state, the record of calls, and the log -/

/-- One call of a method of the service or of the repository, with its arguments. -/
inductive Call where
  | svcCreateArticle (title : String)
  | svcGetArticle (id : Int)
  | repoSave (article : domain.Article)
  | repoGetByID (id : Int)
  deriving DecidableEq, Repr

/-- The state a request runs in: the state of the repository, the calls made so far (oldest
first) and the lines written with `log.Printf` (oldest first). -/
structure World (σ : Type) where
  store : σ
  calls : List Call
  log : List String
  deriving DecidableEq

namespace World

variable {σ : Type}

/-- Record one call. -/
def record (w : World σ) (c : Call) : World σ :=
  { w with calls := w.calls ++ [c] }

/-- Go `log.Printf`: append one line to the log. -/
def Printf (w : World σ) (line : String) : World σ :=
  { w with log := w.log ++ [line] }

/-- The call `repo.Save(ctx, article)`: recorded, then run on the repository state. -/
def callSave (w : World σ) (repo : domain.ArticleRepository σ) (ctx : context.Context)
    (article : domain.Article) : (domain.Article × Option GoError) × World σ :=
  let w1 := w.record (Call.repoSave article)
  let r := repo.Save ctx article w1.store
  (r.1, { w1 with store := r.2 })

/-- The call `repo.GetByID(ctx, id)`: recorded, then run on the repository state. -/
def callGetByID (w : World σ) (repo : domain.ArticleRepository σ) (ctx : context.Context)
    (id : Int) : (domain.Article × Option GoError) × World σ :=
  let w1 := w.record (Call.repoGetByID id)
  let r := repo.GetByID ctx id w1.store
  (r.1, { w1 with store := r.2 })

/-- Whether a call is a call of a method of the repository. -/
def isRepoCall : Call → Bool
  | Call.repoSave _ => true
  | Call.repoGetByID _ => true
  | _ => false

/-- The calls made to the repository so far, oldest first. -/
def repoCalls (w : World σ) : List Call :=
  w.calls.filter isRepoCall

end World

/-! ## internal/usecase -/

namespace usecase

variable {σ : Type}

/-- Go `usecase.ArticleService`. -/
structure ArticleService (σ : Type) where
  repo : domain.ArticleRepository σ

/-- Go `usecase.NewArticleService`. -/
def NewArticleService (repo : domain.ArticleRepository σ) : ArticleService σ :=
  { repo := repo }

/-- Go `(*ArticleService).CreateArticle`. -/
def ArticleService.CreateArticle (s : ArticleService σ) (ctx : context.Context)
    (title : String) (w : World σ) : (domain.Article × Option GoError) × World σ :=
  let w0 := w.record (Call.svcCreateArticle title)
  let r := domain.NewArticle title
  match r.2 with
  | some err => ((domain.Article.zero, some err), w0)
  | none =>
    let saved := w0.callSave s.repo ctx r.1
    match saved.1.2 with
    | some err => ((domain.Article.zero, some err), saved.2)
    | none => ((saved.1.1, none), saved.2)

/-- Go `(*ArticleService).GetArticle`. -/
def ArticleService.GetArticle (s : ArticleService σ) (ctx : context.Context)
    (id : Int) (w : World σ) : (domain.Article × Option GoError) × World σ :=
  let w0 := w.record (Call.svcGetArticle id)
  if id ≤ 0 then
    ((domain.Article.zero, some domain.ErrInvalidID), w0)
  else
    w0.callGetByID s.repo ctx id

end usecase

/-- Go `stubArticleRepo` of the tests: a repository without state, given by the two functions
it calls. -/
structure stubArticleRepo where
  saveFn : context.Context → domain.Article → domain.Article × Option GoError
  getByIDFn : context.Context → Int → domain.Article × Option GoError

/-- The stub as an implementation of `domain.ArticleRepository`. -/
def stubArticleRepo.repo (s : stubArticleRepo) : domain.ArticleRepository Unit :=
  { Save := fun ctx article st => (s.saveFn ctx article, st),
    GetByID := fun ctx id st => (s.getByIDFn ctx id, st) }

/-- A stub that saves every article as article 1 and finds article 42 only. -/
def helloStub : stubArticleRepo :=
  { saveFn := fun _ article => (⟨1, article.Title, time.Time.mk 1⟩, none),
    getByIDFn := fun _ id =>
      if id = 42 then (⟨42, "Hello", time.Time.mk 1⟩, none)
      else (domain.Article.zero, some domain.ErrArticleNotFound) }

/-- A stub whose two methods fail with the error `db error`. -/
def failingStub : stubArticleRepo :=
  { saveFn := fun _ _ => (domain.Article.zero, some (GoError.new 7 "db error")),
    getByIDFn := fun _ _ => (domain.Article.zero, some (GoError.new 7 "db error")) }

/-! ## strconv.ParseInt, as called with base 10 and bit size 64 -/

namespace strconv

/-- The `Err` field of a `*strconv.NumError`. -/
inductive NumErr where
  | ErrSyntax
  | ErrRange
  deriving DecidableEq, Repr

/-- Go `maxUint64`, which is also `maxVal` of `ParseUint` for bit size 64. -/
def maxUint64 : Nat := 2 ^ 64 - 1

/-- The `cutoff` of `ParseUint` for base 10: the smallest number `n` such that `n * 10`
overflows a `uint64`. -/
def cutoffUint : Nat := maxUint64 / 10 + 1

/-- Go `lower(c)`, that is `c | ('x' - 'X')`. -/
def lower (c : Nat) : Nat := c ||| 0x20

/-- The loop of `ParseUint(s, 10, 64)` over the remaining characters, `n` being the value
accumulated so far. A character outside the ASCII range is a sequence of bytes that are all at
least `0x80`, so its first byte takes the `default` case as the character does here. -/
def parseUintLoop : List Char → Nat → Nat × Option NumErr
  | [], n => (n, none)
  | ch :: rest, n =>
    let c := ch.toNat
    let d : Option Nat :=
      if 48 ≤ c ∧ c ≤ 57 then some (c - 48)
      else if 97 ≤ lower c ∧ lower c ≤ 122 then some (lower c - 97 + 10)
      else none
    match d with
    | none => (0, some NumErr.ErrSyntax)
    | some d =>
      if d ≥ 10 then (0, some NumErr.ErrSyntax)
      else if n ≥ cutoffUint then (maxUint64, some NumErr.ErrRange)
      else
        let n10 := n * 10
        let n1 := (n10 + d) % 2 ^ 64
        if n1 < n10 ∨ n1 > maxUint64 then (maxUint64, some NumErr.ErrRange)
        else parseUintLoop rest n1

/-- Go `strconv.ParseUint(s, 10, 64)`. -/
def ParseUint (s : List Char) : Nat × Option NumErr :=
  if s = [] then (0, some NumErr.ErrSyntax) else parseUintLoop s 0

/-- The conversion `int64(un)` of a `uint64`. -/
def toInt64 (un : Nat) : Int :=
  if un < 2 ^ 63 then (un : Int) else (un : Int) - 2 ^ 64

/-- The negation `-n` of an `int64`, which wraps at the minimum. -/
def negInt64 (n : Int) : Int :=
  if n = -(2 ^ 63) then n else -n

/-- Go `strconv.ParseInt(s, 10, 64)`. -/
def ParseInt (s : String) : Int × Option NumErr :=
  match s.data with
  | [] => (0, some NumErr.ErrSyntax)
  | c0 :: rest =>
    let neg := c0 = '-'
    let digits := if c0 = '+' then rest else if c0 = '-' then rest else c0 :: rest
    let r := ParseUint digits
    if r.2 = some NumErr.ErrSyntax then (0, some NumErr.ErrSyntax)
    else
      let un := r.1
      let cutoff : Nat := 2 ^ 63
      if ¬ neg ∧ un ≥ cutoff then ((cutoff : Int) - 1, some NumErr.ErrRange)
      else if neg ∧ un > cutoff then (-(cutoff : Int), some NumErr.ErrRange)
      else
        let n := toInt64 un
        (if neg then negInt64 n else n, none)

/-- A decimal digit, `0` to `9`. -/
def isDecimalDigit (c : Char) : Bool :=
  decide (48 ≤ c.toNat ∧ c.toNat ≤ 57)

/-- The number written by a list of decimal digits, after the digits that gave `acc`. -/
def decimalValueFrom (acc : Nat) (ds : List Char) : Nat :=
  ds.foldl (fun a c => a * 10 + (c.toNat - 48)) acc

/-- The number written by a list of decimal digits. -/
def decimalValue (ds : List Char) : Nat :=
  decimalValueFrom 0 ds

/-- What it is for a string to be a base-10 signed 64-bit integer, in the words of the
specification: an optional sign, then one decimal digit or more, writing a number from
`-2^63` to `2^63 - 1`. The result is that number, and `none` for every other string. -/
def signedDecimal64 (s : String) : Option Int :=
  match s.data with
  | [] => none
  | c0 :: rest =>
    let ds := if c0 = '+' ∨ c0 = '-' then rest else c0 :: rest
    if ds = [] ∨ ds.all isDecimalDigit = false then none
    else
      let n : Int := if c0 = '-' then -(decimalValue ds : Int) else (decimalValue ds : Int)
      if -(2 ^ 63) ≤ n ∧ n ≤ 2 ^ 63 - 1 then some n else none

end strconv

/-! ## internal/adapter/http -/

namespace http

/-- Go `http.StatusOK`. -/
def StatusOK : Nat := 200
/-- Go `http.StatusCreated`. -/
def StatusCreated : Nat := 201
/-- Go `http.StatusBadRequest`. -/
def StatusBadRequest : Nat := 400
/-- Go `http.StatusNotFound`. -/
def StatusNotFound : Nat := 404
/-- Go `http.StatusInternalServerError`. -/
def StatusInternalServerError : Nat := 500

end http

namespace httpadapter

variable {σ : Type}

/-- Go `createArticleRequest`. -/
structure createArticleRequest where
  Title : String
  deriving DecidableEq, Repr

/-- Go `articleResponse`: the JSON object with the keys `id`, `title` and `created_at`. -/
structure articleResponse where
  ID : Int
  Title : String
  CreatedAt : time.Time
  deriving DecidableEq, Repr

/-- The value handed to `c.JSON`: a `gin.H` map with string values, given by its key and value
pairs, or an `articleResponse`. -/
inductive Body where
  | H (fields : List (String × String))
  | article (r : articleResponse)
  deriving DecidableEq, Repr

/-- What `c.JSON(code, obj)` writes: the status code and the value serialised as the body. -/
structure Response where
  status : Nat
  body : Body
  deriving DecidableEq, Repr

/-- The request side of a `*gin.Context`: the outcome of `c.ShouldBindJSON(&req)` on the body of
the request (the decoded request object, or the decoding error), the path parameters, and
`c.Request.Context()`. -/
structure GinContext where
  bindJSON : Except GoError createArticleRequest
  Param : String → String
  requestContext : context.Context

/-- Go `httpadapter.ArticleHandler`. -/
structure ArticleHandler (σ : Type) where
  service : usecase.ArticleService σ

/-- Go `httpadapter.NewArticleHandler`. -/
def NewArticleHandler (service : usecase.ArticleService σ) : ArticleHandler σ :=
  { service := service }

/-- Go `toResponse`. -/
def toResponse (article : domain.Article) : articleResponse :=
  { ID := article.ID, Title := article.Title, CreatedAt := article.CreatedAt }

/-- Go `(*ArticleHandler).handleError`. -/
def handleError (err : GoError) : Response :=
  if errors.Is err domain.ErrInvalidTitle || errors.Is err domain.ErrInvalidID ||
      errors.Is err domain.ErrTitleTooLong then
    ⟨http.StatusBadRequest, Body.H [("error", err.Error)]⟩
  else if errors.Is err domain.ErrArticleNotFound then
    ⟨http.StatusNotFound, Body.H [("error", err.Error)]⟩
  else
    ⟨http.StatusInternalServerError, Body.H [("error", "internal server error")]⟩

/-- Go `(*ArticleHandler).CreateArticle`. -/
def ArticleHandler.CreateArticle (h : ArticleHandler σ) (c : GinContext) (w : World σ) :
    Response × World σ :=
  match c.bindJSON with
  | Except.error _ => (⟨http.StatusBadRequest, Body.H [("error", "invalid request body")]⟩, w)
  | Except.ok req =>
    let r := h.service.CreateArticle c.requestContext req.Title w
    match r.1.2 with
    | some err => (handleError err, r.2.Printf ("create article failed: " ++ err.Error))
    | none => (⟨http.StatusCreated, Body.article (toResponse r.1.1)⟩, r.2)

/-- Go `(*ArticleHandler).GetArticle`. -/
def ArticleHandler.GetArticle (h : ArticleHandler σ) (c : GinContext) (w : World σ) :
    Response × World σ :=
  let rawID := c.Param "id"
  let p := strconv.ParseInt rawID
  match p.2 with
  | some _ => (handleError domain.ErrInvalidID, w)
  | none =>
    let r := h.service.GetArticle c.requestContext p.1 w
    match r.1.2 with
    | some err => (handleError err, r.2.Printf ("get article failed: " ++ err.Error))
    | none => (⟨http.StatusOK, Body.article (toResponse r.1.1)⟩, r.2)

end httpadapter

/-! ## internal/adapter/storage/postgres, over a model of the `articles` table -/

namespace time

/-- The number of seconds between the zero instant and the Unix epoch (Go `unixToInternal`). -/
def unixToInternal : Nat := 62135596800

/-- Go `time.Now()` when the wall clock reads `unixNano` nanoseconds after the Unix epoch. -/
def Now (unixNano : Nat) : Time :=
  ⟨((unixToInternal * 10 ^ 9 + unixNano : Nat) : Int)⟩

/-- The instant `t` as a `timestamptz` column keeps it: with microsecond resolution. -/
def Time.toMicros (t : Time) : Time :=
  ⟨t.nanos / 1000 * 1000⟩

end time

namespace postgres

/-- Go `articleModel`, one row of the table `articles`: `id` is the primary key and
`created_at` is set when the row is created. -/
structure articleModel where
  ID : Int
  Title : String
  CreatedAt : time.Time
  deriving DecidableEq, Repr

end postgres

namespace gorm

open postgres

/-- Go `gorm.ErrRecordNotFound`. -/
def ErrRecordNotFound : GoError := GoError.new 100 "record not found"

/-- The error of the store for a second row with an existing primary key. -/
def ErrDuplicatedKey : GoError := GoError.new 101 "duplicated key not allowed"

/-- The error of the store for a text value it cannot hold (one with a zero code point). -/
def ErrInvalidText : GoError := GoError.new 102 "invalid byte sequence for encoding"

/-- A `*gorm.DB` on the table `articles(id bigserial primary key, title text, created_at
timestamptz)`, as the repository observes it.

* `rows` are the rows of the table.
* `seq` is the last value handed out by the sequence behind `id`, which starts at 1.
* `unixNano` is the reading of the wall clock that `NowFunc` returns.
* `fault` is the failure of the connection, if the store cannot be reached.
* `latency` is the time that the store takes to answer the next query, in nanoseconds.

The last three belong to the surroundings and are free to change between two calls. -/
structure DB where
  rows : List articleModel
  seq : Nat
  unixNano : Nat
  fault : Option GoError
  latency : Nat
  deriving DecidableEq, Repr

/-- The rows of the table whose primary key is `id`, in table order. -/
def DB.lookup (db : DB) (id : Int) : Option articleModel :=
  db.rows.find? (fun row => row.ID == id)

/-- Go `db.WithContext(ctx).Create(&model).Error`, with the model as the call leaves it.

The call fails with the error of the context when the context is done, with the fault of
the connection when the store cannot be reached, and with `DeadlineExceeded`, nothing being
written, when the deadline of the context passes before the store answers. Otherwise a zero
`CreatedAt` is set to the current time, a zero `ID` is replaced by the next value of the
sequence, and the row is inserted unless the store rejects it (a title with a zero code point,
or an `id` already in the table). -/
def Create (db : DB) (ctx : context.Context) (model : articleModel) :
    (articleModel × Option GoError) × DB :=
  match ctx.err with
  | some e => ((model, some e), db)
  | none =>
    match db.fault with
    | some e => ((model, some e), db)
    | none =>
      if ctx.expiresWithin db.latency then
        ((model, some context.DeadlineExceeded), db)
      else
        let stamped : articleModel :=
          if model.CreatedAt.IsZero then { model with CreatedAt := time.Now db.unixNano }
          else model
        if stamped.Title.data.contains (Char.ofNat 0) then
          ((stamped, some ErrInvalidText), db)
        else
          let seq1 := if stamped.ID = 0 then db.seq + 1 else db.seq
          let id : Int := if stamped.ID = 0 then ((db.seq + 1 : Nat) : Int) else stamped.ID
          let db1 := { db with seq := seq1 }
          match db1.lookup id with
          | some _ => ((stamped, some ErrDuplicatedKey), db1)
          | none =>
            let row : articleModel := { stamped with ID := id }
            ((row, none),
              { db1 with
                rows := db1.rows ++ [{ row with CreatedAt := row.CreatedAt.toMicros }] })

/-- Go `db.WithContext(ctx).First(&model, "id = ?", id).Error`, with the model as the call
leaves it. The call fails as `Create` does on a done context, an unreachable store and a
deadline that passes before the store answers; otherwise it gives the row with that primary
key, or `ErrRecordNotFound` when there is none. -/
def First (db : DB) (ctx : context.Context) (model : articleModel) (id : Int) :
    (articleModel × Option GoError) × DB :=
  match ctx.err with
  | some e => ((model, some e), db)
  | none =>
    match db.fault with
    | some e => ((model, some e), db)
    | none =>
      if ctx.expiresWithin db.latency then
        ((model, some context.DeadlineExceeded), db)
      else
        match db.lookup id with
        | some row => ((row, none), db)
        | none => ((model, some ErrRecordNotFound), db)

end gorm

namespace postgres

/-- Go `queryTimeout`, in nanoseconds. -/
def queryTimeout : Nat := 3 * 10 ^ 9

/-- Go `(*ArticleRepository).Save`. -/
def Save (ctx : context.Context) (article : domain.Article) (db : gorm.DB) :
    (domain.Article × Option GoError) × gorm.DB :=
  let ctx1 := context.WithTimeout ctx queryTimeout
  let model : articleModel := { ID := 0, Title := article.Title, CreatedAt := time.Time.zero }
  let r := gorm.Create db ctx1 model
  match r.1.2 with
  | some err => ((domain.Article.zero, some (fmt.Errorf_w "create article: " err)), r.2)
  | none =>
    (({ ID := r.1.1.ID, Title := r.1.1.Title, CreatedAt := r.1.1.CreatedAt }, none), r.2)

/-- Go `(*ArticleRepository).GetByID`. -/
def GetByID (ctx : context.Context) (id : Int) (db : gorm.DB) :
    (domain.Article × Option GoError) × gorm.DB :=
  let ctx1 := context.WithTimeout ctx queryTimeout
  let model : articleModel := { ID := 0, Title := "", CreatedAt := time.Time.zero }
  let r := gorm.First db ctx1 model id
  match r.1.2 with
  | some err =>
    if errors.Is err gorm.ErrRecordNotFound then
      ((domain.Article.zero, some domain.ErrArticleNotFound), r.2)
    else
      ((domain.Article.zero,
        some (fmt.Errorf_w ("get article by id " ++ toString id ++ ": ") err)), r.2)
  | none =>
    (({ ID := r.1.1.ID, Title := r.1.1.Title, CreatedAt := r.1.1.CreatedAt }, none), r.2)

/-- Go `NewArticleRepository`: the repository as an implementation of
`domain.ArticleRepository`, its state being the database. -/
def NewArticleRepository : domain.ArticleRepository gorm.DB :=
  { Save := Save, GetByID := GetByID }

end postgres

/-! ## internal/server, over a model of the routing of `gin.Engine` -/

namespace http

/-- Go `http.StatusServiceUnavailable`. -/
def StatusServiceUnavailable : Nat := 503

end http

namespace gin

variable {σ : Type}

/-- One segment of the pattern of a route: a literal, or a named parameter such as `:id`. -/
inductive Segment where
  | lit (s : String)
  | param (name : String)
  deriving DecidableEq, Repr

/-- A request as the engine receives it: the method, the path of the URL, the outcome of
`c.ShouldBindJSON(&req)` on the body when the reader of the body is capped at the given number
of bytes (`none` for a reader without cap), and the context of the request. -/
structure Request where
  Method : String
  Path : String
  bindJSONWithin : Option Nat → Except GoError httpadapter.createArticleRequest
  ctx : context.Context

/-- A registered route: the method, the pattern, and the handler. -/
structure Route (σ : Type) where
  method : String
  pattern : List Segment
  handler : httpadapter.GinContext → World σ → httpadapter.Response × World σ

/-- A `*gin.Engine` as `NewRouter` builds it: the cap that the middleware `limitRequestBody`
puts on the body of every request, and the registered routes in the order of registration. The
middlewares `gin.Logger` and `gin.Recovery` write the access log and answer a panic of a
handler; they are not embedded. -/
structure Engine (σ : Type) where
  bodyLimit : Option Nat
  routes : List (Route σ)

/-- The pieces of a list of characters between its slashes. -/
def splitOnSlash : List Char → List (List Char)
  | [] => [[]]
  | c :: cs =>
    if c = '/' then [] :: splitOnSlash cs
    else
      match splitOnSlash cs with
      | [] => [[c]]
      | seg :: segs => (c :: seg) :: segs

/-- The segments of a path that starts with a slash; `none` for any other path. -/
def pathSegments (path : String) : Option (List String) :=
  match path.data with
  | [] => none
  | c :: rest => if c = '/' then some ((splitOnSlash rest).map String.mk) else none

/-- Match the segments of a path against a pattern: a literal matches itself, a parameter
matches any segment that is not empty, and the path must have no segment left over. The result
is the list of the parameters with their values. -/
def matchPattern : List Segment → List String → Option (List (String × String))
  | [], [] => some []
  | Segment.lit s :: ps, x :: xs => if x = s then matchPattern ps xs else none
  | Segment.param name :: ps, x :: xs =>
    if x = "" then none
    else
      match matchPattern ps xs with
      | some bs => some ((name, x) :: bs)
      | none => none
  | _, _ => none

/-- The first registered route that a method and the segments of a path match, with the values
of its parameters. -/
def findRoute : List (Route σ) → String → List String →
    Option (Route σ × List (String × String))
  | [], _, _ => none
  | r :: rs, method, segs =>
    if r.method = method then
      match matchPattern r.pattern segs with
      | some bs => some (r, bs)
      | none => findRoute rs method segs
    else findRoute rs method segs

/-- Go `(*gin.Engine).ServeHTTP` on a request that a registered route matches: the handler of
the route runs on the context of the request, with the body capped and the parameters of the
path bound (`c.Param` of any other key is the empty string). The result is `none` when no
route matches: the answer is then the one of the framework and not of the sources. -/
def Engine.ServeHTTP (e : Engine σ) (req : Request) (w : World σ) :
    Option (httpadapter.Response × World σ) :=
  match pathSegments req.Path with
  | none => none
  | some segs =>
    match findRoute e.routes req.Method segs with
    | none => none
    | some (r, bs) =>
      some (r.handler
        { bindJSON := req.bindJSONWithin e.bodyLimit,
          Param := fun key => (bs.lookup key).getD "",
          requestContext := req.ctx } w)

end gin

namespace server

variable {σ : Type}

/-- Go `healthCheckTimeout`, in nanoseconds. -/
def healthCheckTimeout : Nat := 10 ^ 9

/-- The handler that `NewRouter` registers for `GET /healthz`. The callback `healthCheck` takes
the context and the state of the store and returns its error with the next state. -/
def healthz (healthCheck : context.Context → σ → Option GoError × σ)
    (c : httpadapter.GinContext) (w : World σ) : httpadapter.Response × World σ :=
  let ctx := context.WithTimeout c.requestContext healthCheckTimeout
  let r := healthCheck ctx w.store
  match r.1 with
  | some err =>
    (⟨http.StatusServiceUnavailable,
        httpadapter.Body.H [("status", "degraded"), ("db_error", err.Error)]⟩,
      { w with store := r.2 })
  | none =>
    (⟨http.StatusOK, httpadapter.Body.H [("status", "ok")]⟩, { w with store := r.2 })

/-- Go `NewRouter`. A nil `healthCheck` is `none`. -/
def NewRouter (articleHandler : httpadapter.ArticleHandler σ)
    (healthCheck : Option (context.Context → σ → Option GoError × σ)) : gin.Engine σ :=
  let healthCheck1 : context.Context → σ → Option GoError × σ :=
    match healthCheck with
    | none => fun _ st => (none, st)
    | some f => f
  { bodyLimit := some (1 <<< 20),
    routes :=
      [ ⟨"POST", [gin.Segment.lit "article"], articleHandler.CreateArticle⟩,
        ⟨"GET", [gin.Segment.lit "article", gin.Segment.param "id"], articleHandler.GetArticle⟩,
        ⟨"GET", [gin.Segment.lit "healthz"], healthz healthCheck1⟩ ] }

end server

/-! ## Lemmas about the library model -/

/-- Trimming on the right keeps a list that does not start with a space starting so. -/
theorem trimRightSpace_head (rs : List Char)
    (h : ∀ c, rs.head? = some c → unicode.IsSpace c = false) :
    ∀ c, (strings.trimRightSpace rs).head? = some c → unicode.IsSpace c = false := by
  intro c hc
  have hp : strings.trimRightSpace rs <+: rs := List.rdropWhile_prefix unicode.IsSpace rs
  obtain ⟨r, hr⟩ := hp
  cases hm : strings.trimRightSpace rs with
  | nil => rw [hm] at hc; simp at hc
  | cons x xs =>
    rw [hm] at hc hr
    simp only [List.head?_cons, Option.some.injEq] at hc
    apply h
    rw [← hr, ← hc]
    rfl

/-- The first code point of a left-trimmed list is not a space. -/
theorem trimLeftSpace_head (rs : List Char) :
    ∀ c, (strings.trimLeftSpace rs).head? = some c → unicode.IsSpace c = false := by
  intro c hc
  have h := List.head?_dropWhile_not unicode.IsSpace rs
  unfold strings.trimLeftSpace at hc
  rw [hc] at h
  exact h

/-- A list that does not start with a space is its own left trim. -/
theorem trimLeftSpace_eq_self (rs : List Char)
    (h : ∀ c, rs.head? = some c → unicode.IsSpace c = false) :
    strings.trimLeftSpace rs = rs := by
  cases rs with
  | nil => rfl
  | cons x xs =>
    have hx := h x rfl
    simp [strings.trimLeftSpace, List.dropWhile_cons, hx]

/-- Trimming twice is trimming once: `TrimSpace` is idempotent. -/
theorem TrimSpace_idempotent (s : String) :
    strings.TrimSpace (strings.TrimSpace s) = strings.TrimSpace s := by
  unfold strings.TrimSpace
  congr 1
  simp only
  rw [trimLeftSpace_eq_self _ (trimRightSpace_head _ (trimLeftSpace_head s.data))]
  exact List.rdropWhile_idempotent unicode.IsSpace _

/-- What `TrimSpace` removes and what it keeps: the string is a run of spaces, the trimmed
string, and a run of spaces, and the trimmed string neither starts nor ends with a space. -/
theorem TrimSpace_decomposition (s : String) :
    ∃ l r : List Char,
      s.data = l ++ (strings.TrimSpace s).data ++ r ∧
      (∀ c ∈ l, unicode.IsSpace c = true) ∧ (∀ c ∈ r, unicode.IsSpace c = true) ∧
      (∀ c, (strings.TrimSpace s).data.head? = some c → unicode.IsSpace c = false) ∧
      (∀ c, (strings.TrimSpace s).data.getLast? = some c → unicode.IsSpace c = false) := by
  refine ⟨s.data.takeWhile unicode.IsSpace,
    (strings.trimLeftSpace s.data).rtakeWhile unicode.IsSpace, ?_, ?_, ?_, ?_, ?_⟩
  · have h1 := List.takeWhile_append_dropWhile unicode.IsSpace s.data
    have h2 : strings.trimRightSpace (strings.trimLeftSpace s.data) ++
        (strings.trimLeftSpace s.data).rtakeWhile unicode.IsSpace =
        strings.trimLeftSpace s.data := by
      have h3 := List.takeWhile_append_dropWhile unicode.IsSpace
        (strings.trimLeftSpace s.data).reverse
      have h4 := congrArg List.reverse h3
      simp only [List.reverse_append, List.reverse_reverse] at h4
      exact h4
    simp only [strings.TrimSpace, List.append_assoc]
    rw [h2]
    exact h1.symm
  · intro c hc
    exact List.mem_takeWhile_imp hc
  · intro c hc
    exact List.mem_rtakeWhile_imp hc
  · exact trimRightSpace_head _ (trimLeftSpace_head s.data)
  · intro c hc
    simp only [strings.TrimSpace] at hc
    have hne : strings.trimRightSpace (strings.trimLeftSpace s.data) ≠ [] := by
      intro h0
      rw [h0] at hc
      simp at hc
    have := List.rdropWhile_last_not unicode.IsSpace (strings.trimLeftSpace s.data) hne
    rw [List.getLast?_eq_getLast _ hne] at hc
    simp only [Option.some.injEq] at hc
    rw [← hc]
    simpa using this

/-- One step of the loop of `ParseUint` on a decimal digit. -/
theorem parseUintLoop_digit (ch : Char) (rest : List Char) (n : Nat)
    (hd : 48 ≤ ch.toNat ∧ ch.toNat ≤ 57) :
    strconv.parseUintLoop (ch :: rest) n =
      if n ≥ strconv.cutoffUint then (strconv.maxUint64, some strconv.NumErr.ErrRange)
      else if (n * 10 + (ch.toNat - 48)) % 2 ^ 64 < n * 10 ∨
          (n * 10 + (ch.toNat - 48)) % 2 ^ 64 > strconv.maxUint64 then
        (strconv.maxUint64, some strconv.NumErr.ErrRange)
      else strconv.parseUintLoop rest ((n * 10 + (ch.toNat - 48)) % 2 ^ 64) := by
  have h10 : ¬ (ch.toNat - 48 ≥ 10) := by omega
  simp only [strconv.parseUintLoop, hd, and_self, if_true, h10, if_false]

/-- One step of the loop of `ParseUint` on a character that is not a decimal digit. -/
theorem parseUintLoop_not_digit (ch : Char) (rest : List Char) (n : Nat)
    (hd : ¬ (48 ≤ ch.toNat ∧ ch.toNat ≤ 57)) :
    strconv.parseUintLoop (ch :: rest) n = (0, some strconv.NumErr.ErrSyntax) := by
  simp only [strconv.parseUintLoop, hd, if_false]
  by_cases hl : 97 ≤ strconv.lower ch.toNat ∧ strconv.lower ch.toNat ≤ 122
  · have h10 : strconv.lower ch.toNat - 97 + 10 ≥ 10 := by omega
    simp only [hl, and_self, if_true, h10]
  · simp only [hl, if_false]

/-- Reading more digits does not make the number smaller. -/
theorem decimalValueFrom_ge (ds : List Char) (acc : Nat) :
    acc ≤ strconv.decimalValueFrom acc ds := by
  induction ds generalizing acc with
  | nil => exact Nat.le_refl _
  | cons c rest ih =>
    have h := ih (acc * 10 + (c.toNat - 48))
    simp only [strconv.decimalValueFrom, List.foldl_cons] at h ⊢
    omega

/-- The loop of `ParseUint` on decimal digits: the number they write, or a range error when
that number does not fit 64 bits. -/
theorem parseUintLoop_digits (ds : List Char) (n : Nat)
    (hall : ∀ c ∈ ds, 48 ≤ c.toNat ∧ c.toNat ≤ 57) (hn : n ≤ strconv.maxUint64) :
    strconv.parseUintLoop ds n =
      if strconv.decimalValueFrom n ds ≤ strconv.maxUint64 then
        (strconv.decimalValueFrom n ds, none)
      else (strconv.maxUint64, some strconv.NumErr.ErrRange) := by
  induction ds generalizing n with
  | nil =>
    simp only [strconv.parseUintLoop, strconv.decimalValueFrom, List.foldl_nil, hn, if_true]
  | cons c rest ih =>
    have hc := hall c (List.mem_cons_self c rest)
    have hrest : ∀ x ∈ rest, 48 ≤ x.toNat ∧ x.toNat ≤ 57 :=
      fun x hx => hall x (List.mem_cons_of_mem c hx)
    rw [parseUintLoop_digit c rest n hc]
    have hge := decimalValueFrom_ge rest (n * 10 + (c.toNat - 48))
    have hstep : strconv.decimalValueFrom n (c :: rest) =
        strconv.decimalValueFrom (n * 10 + (c.toNat - 48)) rest := rfl
    rw [hstep]
    simp only [strconv.cutoffUint, strconv.maxUint64] at hn ⊢
    norm_num at hn ⊢
    by_cases h1 : 1844674407370955162 ≤ n
    · have h2 : ¬ strconv.decimalValueFrom (n * 10 + (c.toNat - 48)) rest
          ≤ 18446744073709551615 := by omega
      simp only [h1, if_true, h2, if_false]
    · simp only [h1, if_false]
      by_cases h3 : n * 10 + (c.toNat - 48) < 18446744073709551616
      · have hmod : (n * 10 + (c.toNat - 48)) % 18446744073709551616 =
            n * 10 + (c.toNat - 48) := Nat.mod_eq_of_lt h3
        rw [hmod]
        have h4 : ¬ (n * 10 + (c.toNat - 48) < n * 10 ∨
            18446744073709551615 < n * 10 + (c.toNat - 48)) := by omega
        simp only [h4, if_false]
        have := ih (n * 10 + (c.toNat - 48)) hrest
          (by simp only [strconv.maxUint64]; omega)
        simp only [strconv.maxUint64] at this
        norm_num at this
        exact this
      · have hmod : (n * 10 + (c.toNat - 48)) % 18446744073709551616 < n * 10 := by
          omega
        have h2 : ¬ strconv.decimalValueFrom (n * 10 + (c.toNat - 48)) rest
            ≤ 18446744073709551615 := by omega
        simp only [hmod, true_or, if_true, h2, if_false]

/-- The loop of `ParseUint` on characters one of which is not a decimal digit: an error, and
the value `maxUint64` if it is a range error. -/
theorem parseUintLoop_bad (ds : List Char) (n : Nat)
    (hbad : ∃ c ∈ ds, ¬ (48 ≤ c.toNat ∧ c.toNat ≤ 57)) :
    (strconv.parseUintLoop ds n).2 = some strconv.NumErr.ErrSyntax ∨
    strconv.parseUintLoop ds n = (strconv.maxUint64, some strconv.NumErr.ErrRange) := by
  induction ds generalizing n with
  | nil =>
    obtain ⟨c, hc, _⟩ := hbad
    simp at hc
  | cons c rest ih =>
    by_cases hc : 48 ≤ c.toNat ∧ c.toNat ≤ 57
    · have hbad1 : ∃ x ∈ rest, ¬ (48 ≤ x.toNat ∧ x.toNat ≤ 57) := by
        obtain ⟨x, hx, hxd⟩ := hbad
        rcases List.mem_cons.mp hx with hx | hx
        · subst hx
          exact absurd hc hxd
        · exact ⟨x, hx, hxd⟩
      rw [parseUintLoop_digit c rest n hc]
      split
      · exact Or.inr rfl
      · split
        · exact Or.inr rfl
        · exact ih _ hbad1
    · rw [parseUintLoop_not_digit c rest n hc]
      exact Or.inl rfl

/-- `ParseInt` after the sign is read: from the result of `ParseUint` on the rest. -/
theorem ParseInt_cons (c0 : Char) (rest : List Char) (s : String) (hs : s.data = c0 :: rest) :
    strconv.ParseInt s =
      if (strconv.ParseUint (if c0 = '+' ∨ c0 = '-' then rest else c0 :: rest)).2 =
          some strconv.NumErr.ErrSyntax then (0, some strconv.NumErr.ErrSyntax)
      else if ¬ c0 = '-' ∧
          (strconv.ParseUint (if c0 = '+' ∨ c0 = '-' then rest else c0 :: rest)).1 ≥ 2 ^ 63 then
        (2 ^ 63 - 1, some strconv.NumErr.ErrRange)
      else if c0 = '-' ∧
          (strconv.ParseUint (if c0 = '+' ∨ c0 = '-' then rest else c0 :: rest)).1 > 2 ^ 63 then
        (-(2 ^ 63), some strconv.NumErr.ErrRange)
      else
        (if c0 = '-' then strconv.negInt64 (strconv.toInt64
            (strconv.ParseUint (if c0 = '+' ∨ c0 = '-' then rest else c0 :: rest)).1)
          else strconv.toInt64
            (strconv.ParseUint (if c0 = '+' ∨ c0 = '-' then rest else c0 :: rest)).1, none) := by
  have hds : (if c0 = '+' then rest else if c0 = '-' then rest else c0 :: rest) =
      (if c0 = '+' ∨ c0 = '-' then rest else c0 :: rest) := by
    by_cases h1 : c0 = '+'
    · simp [h1]
    · by_cases h2 : c0 = '-'
      · simp [h2]
      · simp [h1, h2]
  simp only [strconv.ParseInt, hs, hds]
  norm_num

/-- The words of the specification on a string that is not empty. -/
theorem signedDecimal64_cons (c0 : Char) (rest : List Char) (s : String)
    (hs : s.data = c0 :: rest) :
    strconv.signedDecimal64 s =
      if (if c0 = '+' ∨ c0 = '-' then rest else c0 :: rest) = [] ∨
          (if c0 = '+' ∨ c0 = '-' then rest else c0 :: rest).all strconv.isDecimalDigit
            = false then none
      else if -(2 ^ 63) ≤ (if c0 = '-' then
              -(strconv.decimalValue (if c0 = '+' ∨ c0 = '-' then rest else c0 :: rest) : Int)
            else (strconv.decimalValue (if c0 = '+' ∨ c0 = '-' then rest else c0 :: rest) : Int)) ∧
          (if c0 = '-' then
              -(strconv.decimalValue (if c0 = '+' ∨ c0 = '-' then rest else c0 :: rest) : Int)
            else (strconv.decimalValue (if c0 = '+' ∨ c0 = '-' then rest else c0 :: rest) : Int))
            ≤ 2 ^ 63 - 1 then
        some (if c0 = '-' then
              -(strconv.decimalValue (if c0 = '+' ∨ c0 = '-' then rest else c0 :: rest) : Int)
            else (strconv.decimalValue (if c0 = '+' ∨ c0 = '-' then rest else c0 :: rest) : Int))
      else none := by
  simp only [strconv.signedDecimal64, hs]

/-- The refinement of the words of the specification by `ParseInt`: on a string that is a
base-10 signed 64-bit integer `ParseInt` returns that integer and a nil error, and on every
other string it returns an error. -/
theorem ParseInt_eq_signedDecimal64 (s : String) :
    (∀ n, strconv.signedDecimal64 s = some n → strconv.ParseInt s = (n, none)) ∧
    (strconv.signedDecimal64 s = none → (strconv.ParseInt s).2 ≠ none) := by
  cases hs : s.data with
  | nil =>
    simp [strconv.signedDecimal64, strconv.ParseInt, hs]
  | cons c0 rest =>
    rw [ParseInt_cons c0 rest s hs, signedDecimal64_cons c0 rest s hs]
    generalize (if c0 = '+' ∨ c0 = '-' then rest else c0 :: rest) = ds
    have e63 : (2 : Nat) ^ 63 = 9223372036854775808 := by norm_num
    have i63 : (2 : Int) ^ 63 = 9223372036854775808 := by norm_num
    have i64 : (2 : Int) ^ 64 = 18446744073709551616 := by norm_num
    by_cases hnil : ds = []
    · subst hnil
      simp [strconv.ParseUint]
    · by_cases hall : ds.all strconv.isDecimalDigit = false
      · have hbad : ∃ c ∈ ds, ¬ (48 ≤ c.toNat ∧ c.toNat ≤ 57) := by
          have : ¬ (ds.all strconv.isDecimalDigit = true) := by simp [hall]
          rw [List.all_eq_true] at this
          push_neg at this
          obtain ⟨c, hc, hcd⟩ := this
          refine ⟨c, hc, ?_⟩
          simpa [strconv.isDecimalDigit] using hcd
        have hloop := parseUintLoop_bad ds 0 hbad
        rw [if_pos (Or.inr hall)]
        simp only [strconv.ParseUint, hnil, if_false]
        refine ⟨by simp, fun _ => ?_⟩
        rcases hloop with hl | hl
        · simp [hl]
        · rw [hl]
          simp only [strconv.maxUint64]
          by_cases hneg : c0 = '-'
          · simp [hneg]
          · simp [hneg]
      · have hall1 : ∀ c ∈ ds, 48 ≤ c.toNat ∧ c.toNat ≤ 57 := by
          have : ds.all strconv.isDecimalDigit = true := by simpa using hall
          rw [List.all_eq_true] at this
          intro c hc
          simpa [strconv.isDecimalDigit] using this c hc
        have hloop := parseUintLoop_digits ds 0 hall1 (by simp [strconv.maxUint64])
        have hcond : ¬ (ds = [] ∨ ds.all strconv.isDecimalDigit = false) := by
          intro h
          rcases h with h | h
          · exact hnil h
          · exact hall h
        rw [if_neg hcond]
        simp only [strconv.ParseUint, hnil, if_false, hloop, strconv.decimalValue]
        generalize strconv.decimalValueFrom 0 ds = v
        simp only [strconv.maxUint64, strconv.toInt64, strconv.negInt64, e63, i63, i64]
        by_cases hv : v ≤ 2 ^ 64 - 1
        · rw [if_pos hv]
          have hv1 : v ≤ 18446744073709551615 := by
            norm_num at hv
            exact hv
          simp only [reduceCtorEq, if_false]
          by_cases hneg : c0 = '-'
          · simp only [hneg, if_true, not_true_eq_false, false_and, if_false, true_and]
            constructor
            · intro n hn
              split at hn
              · rename_i hr
                simp only [Option.some.injEq] at hn
                subst hn
                have h1 : ¬ v > 9223372036854775808 := by omega
                rw [if_neg h1]
                refine Prod.ext ?_ rfl
                simp only
                split_ifs <;> first | omega | contradiction
              · simp at hn
            · intro hnone
              split at hnone
              · simp at hnone
              · rename_i hr
                have h1 : v > 9223372036854775808 := by omega
                rw [if_pos h1]
                simp
          · simp only [hneg, if_false, not_false_eq_true, true_and, false_and]
            constructor
            · intro n hn
              split at hn
              · rename_i hr
                simp only [Option.some.injEq] at hn
                subst hn
                have h1 : ¬ v ≥ 9223372036854775808 := by omega
                rw [if_neg h1]
                refine Prod.ext ?_ rfl
                simp only
                split_ifs <;> omega
              · simp at hn
            · intro hnone
              split at hnone
              · simp at hnone
              · rename_i hr
                have h1 : v ≥ 9223372036854775808 := by omega
                rw [if_pos h1]
                simp
        · rw [if_neg hv]
          have hv1 : ¬ v ≤ 18446744073709551615 := by
            norm_num at hv
            omega
          simp only [reduceCtorEq, if_false]
          have hspec : ¬ (-(9223372036854775808 : Int) ≤
              (if c0 = '-' then -(v : Int) else (v : Int)) ∧
              (if c0 = '-' then -(v : Int) else (v : Int)) ≤ 9223372036854775808 - 1) := by
            split_ifs <;> omega
          rw [if_neg hspec]
          refine ⟨by simp, fun _ => ?_⟩
          by_cases hneg : c0 = '-'
          · simp [hneg]
          · simp [hneg]

/-! ## Lemmas shared by the claims -/

/-- The three outcomes of `NewArticle`, by the two tests it makes on the trimmed title. -/
theorem NewArticle_eq (t : String) :
    domain.NewArticle t =
      if strings.TrimSpace t = "" then (domain.Article.zero, some domain.ErrInvalidTitle)
      else if runeLen (strings.TrimSpace t) > 140 then
        (domain.Article.zero, some domain.ErrTitleTooLong)
      else (⟨0, strings.TrimSpace t, time.Time.zero⟩, none) := by
  rfl

/-- A successful `NewArticle` returns the unpersisted article with the trimmed title. -/
theorem NewArticle_of_ok (t : String) (h : (domain.NewArticle t).2 = none) :
    domain.NewArticle t = (⟨0, strings.TrimSpace t, time.Time.zero⟩, none) := by
  rw [NewArticle_eq] at h ⊢
  by_cases h1 : strings.TrimSpace t = ""
  · simp [h1] at h
  · by_cases h2 : runeLen (strings.TrimSpace t) > 140
    · simp [h1, h2] at h
    · simp [h1, h2]

/-- A failing `NewArticle` returns the zero article and one of the two title errors. -/
theorem NewArticle_of_error (t : String) (e : GoError) (h : (domain.NewArticle t).2 = some e) :
    (e = domain.ErrInvalidTitle ∨ e = domain.ErrTitleTooLong) ∧
    (domain.NewArticle t).1 = domain.Article.zero := by
  rw [NewArticle_eq] at h ⊢
  by_cases h1 : strings.TrimSpace t = ""
  · simp [h1] at h ⊢
    exact Or.inl h.symm
  · by_cases h2 : runeLen (strings.TrimSpace t) > 140
    · simp [h1, h2] at h ⊢
      exact Or.inr h.symm
    · simp [h1, h2] at h

/-! ## The tests of `internal/domain`, as theorems -/

/-- Go `TestNewArticle_TrimsAndCreates`. -/
theorem TestNewArticle_TrimsAndCreates :
    domain.NewArticle "  Hello  " = (⟨0, "Hello", time.Time.zero⟩, none) := by
  decide

/-- Go `TestNewArticle_InvalidTitle`. -/
theorem TestNewArticle_InvalidTitle :
    domain.NewArticle "   " = (domain.Article.zero, some domain.ErrInvalidTitle) := by
  decide

set_option maxRecDepth 100000 in
/-- Go `TestNewArticle_TitleTooLong`. -/
theorem TestNewArticle_TitleTooLong :
    domain.NewArticle (String.mk (List.replicate (domain.MaxTitleLength + 1) 'a')) =
      (domain.Article.zero, some domain.ErrTitleTooLong) := by
  decide

set_option maxRecDepth 100000 in
/-- The length test counts code points and not bytes: a title of 140 two-byte characters is
280 bytes long and is accepted. -/
theorem NewArticle_counts_runes :
    (String.mk (List.replicate 140 'é')).utf8ByteSize = 280 ∧
    (domain.NewArticle (String.mk (List.replicate 140 'é'))).2 = none := by
  decide

/-! ## `strconv.ParseInt` on the strings of the Go documentation and tests -/

/-- The largest and the smallest `int64` parse, with or without a sign. -/
theorem ParseInt_extremes :
    strconv.ParseInt "9223372036854775807" = (9223372036854775807, none) ∧
    strconv.ParseInt "-9223372036854775808" = (-9223372036854775808, none) ∧
    strconv.ParseInt "+42" = (42, none) ∧
    strconv.ParseInt "-0" = (0, none) ∧
    strconv.ParseInt "0042" = (42, none) := by
  decide

/-- Strings that do not parse: the empty string, a lone sign, a word, a digit followed by a
letter, a number with a space, an underscore, full-width digits, and the two numbers next to the
range of `int64`. -/
theorem ParseInt_failures :
    strconv.ParseInt "" = (0, some strconv.NumErr.ErrSyntax) ∧
    strconv.ParseInt "-" = (0, some strconv.NumErr.ErrSyntax) ∧
    strconv.ParseInt "not-a-number" = (0, some strconv.NumErr.ErrSyntax) ∧
    strconv.ParseInt "12a" = (0, some strconv.NumErr.ErrSyntax) ∧
    strconv.ParseInt " 12" = (0, some strconv.NumErr.ErrSyntax) ∧
    strconv.ParseInt "1_000" = (0, some strconv.NumErr.ErrSyntax) ∧
    strconv.ParseInt "１２" = (0, some strconv.NumErr.ErrSyntax) ∧
    strconv.ParseInt "9223372036854775808" =
      (9223372036854775807, some strconv.NumErr.ErrRange) ∧
    strconv.ParseInt "-9223372036854775809" =
      (-9223372036854775808, some strconv.NumErr.ErrRange) ∧
    strconv.ParseInt "99999999999999999999999999" =
      (9223372036854775807, some strconv.NumErr.ErrRange) := by
  decide

/-! ## Claims about the domain constructor -/

/-- C1: `NewArticle t` returns a nil error exactly when the trimmed `t` is non-empty and has at
most 140 code points; and whenever it returns a nil error the article has the trimmed `t` as
its title, id 0 and the zero creation time. -/
theorem NewArticle_succeeds_iff (t : String) :
    ((domain.NewArticle t).2 = none ↔
      (strings.TrimSpace t ≠ "" ∧ runeLen (strings.TrimSpace t) ≤ 140)) ∧
    ((domain.NewArticle t).2 = none →
      (domain.NewArticle t).1.Title = strings.TrimSpace t ∧
      (domain.NewArticle t).1.ID = 0 ∧
      (domain.NewArticle t).1.CreatedAt = time.Time.zero) := by
  constructor
  · rw [NewArticle_eq]
    by_cases h1 : strings.TrimSpace t = ""
    · simp [h1]
    · by_cases h2 : runeLen (strings.TrimSpace t) > 140
      · simp [h1, h2]
      · simp [h1, h2]
        omega
  · intro h
    rw [NewArticle_of_ok t h]
    exact ⟨rfl, rfl, rfl⟩

/-- The witness of C1: the title of the first test of the package. -/
theorem NewArticle_succeeds_iff_witness :
    (domain.NewArticle "  Hello  ").1.Title = "Hello" ∧
    (domain.NewArticle "  Hello  ").1.ID = 0 ∧
    (domain.NewArticle "  Hello  ").1.CreatedAt = time.Time.zero :=
  (NewArticle_succeeds_iff "  Hello  ").2 (by decide)

/-- C2: when the trimmed `t` is empty, `NewArticle t` returns the zero article and
`ErrInvalidTitle`; when the trimmed `t` is non-empty and longer than 140 code points, it
returns the zero article and `ErrTitleTooLong`; and no other error is ever returned, always
with the zero article. -/
theorem NewArticle_errors (t : String) :
    (strings.TrimSpace t = "" →
      domain.NewArticle t = (domain.Article.zero, some domain.ErrInvalidTitle)) ∧
    (strings.TrimSpace t ≠ "" → runeLen (strings.TrimSpace t) > 140 →
      domain.NewArticle t = (domain.Article.zero, some domain.ErrTitleTooLong)) ∧
    (∀ e, (domain.NewArticle t).2 = some e →
      (e = domain.ErrInvalidTitle ∨ e = domain.ErrTitleTooLong) ∧
      (domain.NewArticle t).1 = domain.Article.zero) := by
  refine ⟨?_, ?_, fun e h => NewArticle_of_error t e h⟩
  · intro h1
    rw [NewArticle_eq]
    simp [h1]
  · intro h1 h2
    rw [NewArticle_eq]
    simp [h1, h2]

set_option maxRecDepth 100000 in
/-- The witness of C2: a title of spaces only, and a title of 141 letters. -/
theorem NewArticle_errors_witness :
    domain.NewArticle " \t " = (domain.Article.zero, some domain.ErrInvalidTitle) ∧
    domain.NewArticle (String.mk (List.replicate 141 'a')) =
      (domain.Article.zero, some domain.ErrTitleTooLong) :=
  ⟨(NewArticle_errors " \t ").1 (by decide),
   (NewArticle_errors (String.mk (List.replicate 141 'a'))).2.1 (by decide) (by decide)⟩

/-! ## Claims about the application service -/

/-- C3: for `id <= 0`, `GetArticle` returns the zero article and `ErrInvalidID`, leaves the
state of the repository alone and records no repository call; for `id > 0` it calls
`GetByID` once, with that id, and returns both results of that call unchanged. -/
theorem GetArticle_contract {σ : Type} (s : usecase.ArticleService σ) (ctx : context.Context)
    (id : Int) (w : World σ) :
    (id ≤ 0 →
      s.GetArticle ctx id w =
        ((domain.Article.zero, some domain.ErrInvalidID),
          { store := w.store, calls := w.calls ++ [Call.svcGetArticle id], log := w.log })) ∧
    (id > 0 →
      s.GetArticle ctx id w =
        ((s.repo.GetByID ctx id w.store).1,
          { store := (s.repo.GetByID ctx id w.store).2,
            calls := w.calls ++ [Call.svcGetArticle id, Call.repoGetByID id],
            log := w.log })) := by
  constructor
  · intro h
    simp [usecase.ArticleService.GetArticle, h, World.record]
  · intro h
    have h1 : ¬ id ≤ 0 := by omega
    simp [usecase.ArticleService.GetArticle, h1, World.record, World.callGetByID]


/-- The witness of C3: id 0, and id 42 on a stub that knows article 42. -/
theorem GetArticle_contract_witness :
    (usecase.NewArticleService helloStub.repo).GetArticle context.Background 0 ⟨(), [], []⟩ =
      ((domain.Article.zero, some domain.ErrInvalidID),
        { store := (), calls := [] ++ [Call.svcGetArticle 0], log := [] }) ∧
    (usecase.NewArticleService helloStub.repo).GetArticle context.Background 42 ⟨(), [], []⟩ =
      ((helloStub.repo.GetByID context.Background 42 ()).1,
        { store := (helloStub.repo.GetByID context.Background 42 ()).2,
          calls := [] ++ [Call.svcGetArticle 42, Call.repoGetByID 42], log := [] }) :=
  ⟨(GetArticle_contract (usecase.NewArticleService helloStub.repo) context.Background 0
      ⟨(), [], []⟩).1 (by decide),
   (GetArticle_contract (usecase.NewArticleService helloStub.repo) context.Background 42
      ⟨(), [], []⟩).2 (by decide)⟩

/-- C4: when `NewArticle t` fails with error `e`, `CreateArticle` returns the zero article and
that same `e`, which is `ErrInvalidTitle` or `ErrTitleTooLong`, and makes no call to the
repository: no call is recorded and the state of the repository is unchanged. -/
theorem CreateArticle_validation_failure {σ : Type} (s : usecase.ArticleService σ)
    (ctx : context.Context) (t : String) (w : World σ) (e : GoError)
    (h : (domain.NewArticle t).2 = some e) :
    s.CreateArticle ctx t w =
      ((domain.Article.zero, some e),
        { store := w.store, calls := w.calls ++ [Call.svcCreateArticle t], log := w.log }) ∧
    (e = domain.ErrInvalidTitle ∨ e = domain.ErrTitleTooLong) := by
  refine ⟨?_, (NewArticle_of_error t e h).1⟩
  simp [usecase.ArticleService.CreateArticle, h, World.record]


/-- The witness of C4: a title of spaces only, as in `TestArticleService_CreateArticle_InvalidTitle`. -/
theorem CreateArticle_validation_failure_witness :
    (usecase.NewArticleService helloStub.repo).CreateArticle context.Background "   "
        ⟨(), [], []⟩ =
      ((domain.Article.zero, some domain.ErrInvalidTitle),
        { store := (), calls := [] ++ [Call.svcCreateArticle "   "], log := [] }) ∧
    (domain.ErrInvalidTitle = domain.ErrInvalidTitle ∨
      domain.ErrInvalidTitle = domain.ErrTitleTooLong) :=
  CreateArticle_validation_failure (usecase.NewArticleService helloStub.repo)
    context.Background "   " ⟨(), [], []⟩ domain.ErrInvalidTitle (by decide)

/-- C5: when `NewArticle t` succeeds, `CreateArticle` calls `Save` once, with the article whose
title is the trimmed `t`, whose id is 0 and whose creation time is zero, and returns what
`Save` returned: the saved article when `Save` returned a nil error, and otherwise the error
of `Save` itself with the zero article. -/
theorem CreateArticle_delegates_to_Save {σ : Type} (s : usecase.ArticleService σ)
    (ctx : context.Context) (t : String) (w : World σ)
    (h : (domain.NewArticle t).2 = none) :
    (s.CreateArticle ctx t w).2 =
      { store := (s.repo.Save ctx ⟨0, strings.TrimSpace t, time.Time.zero⟩ w.store).2,
        calls := w.calls ++
          [Call.svcCreateArticle t, Call.repoSave ⟨0, strings.TrimSpace t, time.Time.zero⟩],
        log := w.log } ∧
    (∀ saved, (s.repo.Save ctx ⟨0, strings.TrimSpace t, time.Time.zero⟩ w.store).1
        = (saved, none) →
      (s.CreateArticle ctx t w).1 = (saved, none)) ∧
    (∀ saved err, (s.repo.Save ctx ⟨0, strings.TrimSpace t, time.Time.zero⟩ w.store).1
        = (saved, some err) →
      (s.CreateArticle ctx t w).1 = (domain.Article.zero, some err)) := by
  have ha := NewArticle_of_ok t h
  simp only [usecase.ArticleService.CreateArticle, ha, World.callSave, World.record]
  cases hs : (s.repo.Save ctx ⟨0, strings.TrimSpace t, time.Time.zero⟩ w.store).1.2 with
  | none =>
    refine ⟨by simp, ?_, ?_⟩
    · intro saved hsv
      simp [hsv]
    · intro saved err hsv
      rw [hsv] at hs
      simp at hs
  | some e =>
    refine ⟨by simp, ?_, ?_⟩
    · intro saved hsv
      rw [hsv] at hs
      simp at hs
    · intro saved err hsv
      rw [hsv] at hs
      simp at hs
      simp [hs]


/-- The witness of C5: the title `  Hello  ` on a stub that saves, as in
`TestArticleService_CreateArticle_Success`, and on a stub that fails, as in
`TestArticleService_CreateArticle_RepoError`. -/
theorem CreateArticle_delegates_to_Save_witness :
    ((usecase.NewArticleService helloStub.repo).CreateArticle context.Background "  Hello  "
        ⟨(), [], []⟩).1 = (⟨1, "Hello", time.Time.mk 1⟩, none) ∧
    ((usecase.NewArticleService failingStub.repo).CreateArticle context.Background "  Hello  "
        ⟨(), [], []⟩).1 = (domain.Article.zero, some (GoError.new 7 "db error")) :=
  ⟨(CreateArticle_delegates_to_Save (usecase.NewArticleService helloStub.repo)
      context.Background "  Hello  " ⟨(), [], []⟩ (by decide)).2.1
      ⟨1, "Hello", time.Time.mk 1⟩ (by decide),
   (CreateArticle_delegates_to_Save (usecase.NewArticleService failingStub.repo)
      context.Background "  Hello  " ⟨(), [], []⟩ (by decide)).2.2
      domain.Article.zero (GoError.new 7 "db error") (by decide)⟩

/-! ## Claims about the HTTP adapter -/

/-- An error that wraps at most one error at every level matches at most one `errors.New`
value. -/
theorem Is_single_unique (e : GoError) (i j : Nat) (mi mj : String)
    (hs : e.single = true) (hi : errors.Is e (GoError.new i mi) = true)
    (hj : errors.Is e (GoError.new j mj) = true) : i = j := by
  induction e with
  | new k m =>
    simp only [errors.Is, GoError.same, beq_iff_eq] at hi hj
    omega
  | wrap m inner ih =>
    exact ih hs hi hj
  | join a b _ _ =>
    simp [GoError.single] at hs

/-- C6: `handleError`, its cases read in the order of the `switch`: it answers 400 when the
error matches `ErrInvalidTitle`, `ErrInvalidID` or `ErrTitleTooLong`; 404 when it is not such an
error and matches `ErrArticleNotFound`; and 500 for every other error, with the one body whose
`error` is `internal server error`, whatever the message of the error is. For an error that
wraps at most one error at every level, as every error built by the sources does, the first
two cases exclude each other, and it answers 404 whenever the error matches
`ErrArticleNotFound`. -/
theorem handleError_status (e : GoError) :
    ((errors.Is e domain.ErrInvalidTitle = true ∨ errors.Is e domain.ErrInvalidID = true ∨
        errors.Is e domain.ErrTitleTooLong = true) →
      (httpadapter.handleError e).status = 400) ∧
    (errors.Is e domain.ErrArticleNotFound = true →
      ¬ (errors.Is e domain.ErrInvalidTitle = true ∨ errors.Is e domain.ErrInvalidID = true ∨
        errors.Is e domain.ErrTitleTooLong = true) →
      (httpadapter.handleError e).status = 404) ∧
    (¬ (errors.Is e domain.ErrInvalidTitle = true ∨ errors.Is e domain.ErrInvalidID = true ∨
        errors.Is e domain.ErrTitleTooLong = true) →
      ¬ errors.Is e domain.ErrArticleNotFound = true →
      httpadapter.handleError e =
        ⟨500, httpadapter.Body.H [("error", "internal server error")]⟩) ∧
    (e.single = true → errors.Is e domain.ErrArticleNotFound = true →
      (httpadapter.handleError e).status = 404) := by
  have hcases : ∀ e : GoError,
      (errors.Is e domain.ErrArticleNotFound = true →
        ¬ (errors.Is e domain.ErrInvalidTitle = true ∨ errors.Is e domain.ErrInvalidID = true ∨
          errors.Is e domain.ErrTitleTooLong = true) →
        (httpadapter.handleError e).status = 404) := by
    intro e hb ha
    unfold httpadapter.handleError
    have hc : ¬ (errors.Is e domain.ErrInvalidTitle || errors.Is e domain.ErrInvalidID ||
        errors.Is e domain.ErrTitleTooLong) = true := by
      simpa [or_assoc] using ha
    rw [if_neg hc, if_pos hb]
    rfl
  unfold httpadapter.handleError
  refine ⟨?_, ?_, ?_, ?_⟩
  · intro h
    have hc : (errors.Is e domain.ErrInvalidTitle || errors.Is e domain.ErrInvalidID ||
        errors.Is e domain.ErrTitleTooLong) = true := by
      rcases h with h | h | h <;> simp [h]
    rw [if_pos hc]
    rfl
  · intro hb ha
    have hc : ¬ (errors.Is e domain.ErrInvalidTitle || errors.Is e domain.ErrInvalidID ||
        errors.Is e domain.ErrTitleTooLong) = true := by
      simpa [or_assoc] using ha
    rw [if_neg hc, if_pos hb]
    rfl
  · intro ha hb
    have hc : ¬ (errors.Is e domain.ErrInvalidTitle || errors.Is e domain.ErrInvalidID ||
        errors.Is e domain.ErrTitleTooLong) = true := by
      simpa [or_assoc] using ha
    rw [if_neg hc, if_neg hb]
    rfl
  · intro hs hb
    have ha : ¬ (errors.Is e domain.ErrInvalidTitle = true ∨
        errors.Is e domain.ErrInvalidID = true ∨
        errors.Is e domain.ErrTitleTooLong = true) := by
      intro h
      rcases h with h | h | h
      · exact absurd (Is_single_unique e 0 2 _ _ hs hb h) (by decide)
      · exact absurd (Is_single_unique e 0 1 _ _ hs hb h) (by decide)
      · exact absurd (Is_single_unique e 0 3 _ _ hs hb h) (by decide)
    have := hcases e hb ha
    unfold httpadapter.handleError at this
    exact this

/-- The witness of C6: a wrapped `ErrArticleNotFound` is answered with 404, and the error of
a failing store with 500 and the generic body. -/
theorem handleError_status_witness :
    (httpadapter.handleError
      (GoError.wrap "lookup: article not found" domain.ErrArticleNotFound)).status = 404 ∧
    httpadapter.handleError (GoError.new 7 "db error") =
      ⟨500, httpadapter.Body.H [("error", "internal server error")]⟩ :=
  ⟨(handleError_status
      (GoError.wrap "lookup: article not found" domain.ErrArticleNotFound)).2.2.2
      (by decide) (by decide),
   (handleError_status (GoError.new 7 "db error")).2.2.1 (by decide) (by decide)⟩

/-- What `GetArticle` of the handler does, by the result of `strconv.ParseInt` on the path
segment. -/
theorem GetArticle_handler_of_ParseInt {σ : Type} (h : httpadapter.ArticleHandler σ)
    (c : httpadapter.GinContext) (w : World σ) :
    (((strconv.ParseInt (c.Param "id")).2 ≠ none ∨ (strconv.ParseInt (c.Param "id")).1 ≤ 0) →
      (h.GetArticle c w).1 =
        ⟨400, httpadapter.Body.H [("error", "id must be a positive integer")]⟩ ∧
      (h.GetArticle c w).2.store = w.store ∧
      (h.GetArticle c w).2.repoCalls = w.repoCalls) ∧
    (∀ n, strconv.ParseInt (c.Param "id") = (n, none) → n > 0 →
      (h.GetArticle c w).2.repoCalls = w.repoCalls ++ [Call.repoGetByID n]) := by
  constructor
  · intro hp
    unfold httpadapter.ArticleHandler.GetArticle
    cases hp2 : (strconv.ParseInt (c.Param "id")).2 with
    | some e =>
      simp only [hp2]
      exact ⟨by decide, trivial, trivial⟩
    | none =>
      have hle : (strconv.ParseInt (c.Param "id")).1 ≤ 0 := by
        rcases hp with hp | hp
        · exact absurd hp2 hp
        · exact hp
      simp only [hp2, usecase.ArticleService.GetArticle, hle, if_true, World.record,
        World.Printf, World.repoCalls]
      refine ⟨by decide, trivial, ?_⟩
      simp [World.isRepoCall]
  · intro n hp hn
    have h1 : ¬ n ≤ 0 := by omega
    unfold httpadapter.ArticleHandler.GetArticle
    simp only [hp, usecase.ArticleService.GetArticle, h1, if_false, World.record,
      World.callGetByID]
    cases (h.service.repo.GetByID c.requestContext n w.store).1.2 <;>
      simp [World.repoCalls, World.Printf, World.isRepoCall]

/-- C7: when the path segment is not a base-10 signed 64-bit integer, or is one that is not
positive, `GetArticle` answers 400 with the message `id must be a positive integer`, leaves the
state of the repository alone and makes no call to the repository; when it is the positive
integer `n`, the calls made to the repository are the one call `GetByID(n)`. -/
theorem GetArticle_handler_id {σ : Type} (h : httpadapter.ArticleHandler σ)
    (c : httpadapter.GinContext) (w : World σ) :
    ((strconv.signedDecimal64 (c.Param "id") = none ∨
        ∃ n, strconv.signedDecimal64 (c.Param "id") = some n ∧ n ≤ 0) →
      (h.GetArticle c w).1 =
        ⟨400, httpadapter.Body.H [("error", "id must be a positive integer")]⟩ ∧
      (h.GetArticle c w).2.store = w.store ∧
      (h.GetArticle c w).2.repoCalls = w.repoCalls) ∧
    (∀ n, strconv.signedDecimal64 (c.Param "id") = some n → n > 0 →
      (h.GetArticle c w).2.repoCalls = w.repoCalls ++ [Call.repoGetByID n]) := by
  have hparse := ParseInt_eq_signedDecimal64 (c.Param "id")
  have hh := GetArticle_handler_of_ParseInt h c w
  constructor
  · intro hp
    apply hh.1
    rcases hp with hp | ⟨n, hp, hn⟩
    · exact Or.inl (hparse.2 hp)
    · right
      rw [hparse.1 n hp]
      exact hn
  · intro n hp hn
    exact hh.2 n (hparse.1 n hp) hn

/-- The witness of C7, on a stub that knows article 42: the segment `not-a-number` is answered
with 400 without a call to the repository, and the segment `+42` calls `GetByID(42)`. -/
theorem GetArticle_handler_id_witness :
    ((httpadapter.NewArticleHandler (usecase.NewArticleService helloStub.repo)).GetArticle
        ⟨Except.ok ⟨""⟩, fun _ => "not-a-number", context.Background⟩ ⟨(), [], []⟩).1 =
      ⟨400, httpadapter.Body.H [("error", "id must be a positive integer")]⟩ ∧
    ((httpadapter.NewArticleHandler (usecase.NewArticleService helloStub.repo)).GetArticle
        ⟨Except.ok ⟨""⟩, fun _ => "+42", context.Background⟩ ⟨(), [], []⟩).2.repoCalls =
      World.repoCalls (σ := Unit) ⟨(), [], []⟩ ++ [Call.repoGetByID 42] :=
  ⟨((GetArticle_handler_id
      (httpadapter.NewArticleHandler (usecase.NewArticleService helloStub.repo))
      ⟨Except.ok ⟨""⟩, fun _ => "not-a-number", context.Background⟩ ⟨(), [], []⟩).1
      (Or.inl (by decide))).1,
   (GetArticle_handler_id
      (httpadapter.NewArticleHandler (usecase.NewArticleService helloStub.repo))
      ⟨Except.ok ⟨""⟩, fun _ => "+42", context.Background⟩ ⟨(), [], []⟩).2 42
      (by decide) (by decide)⟩

/-- C8: when the body of the request fails to decode, whatever the decoding error is,
`CreateArticle` answers 400 with the body whose `error` is `invalid request body`, and the
world is left as it was: no call of the service or of the repository is recorded, the state
of the repository is unchanged and nothing is logged. -/
theorem CreateArticle_handler_bad_body {σ : Type} (h : httpadapter.ArticleHandler σ)
    (c : httpadapter.GinContext) (w : World σ) (e : GoError)
    (hbind : c.bindJSON = Except.error e) :
    (h.CreateArticle c w).1 =
      ⟨400, httpadapter.Body.H [("error", "invalid request body")]⟩ ∧
    (h.CreateArticle c w).2.calls = w.calls ∧
    (h.CreateArticle c w).2.store = w.store ∧
    (h.CreateArticle c w).2.log = w.log := by
  unfold httpadapter.ArticleHandler.CreateArticle
  simp only [hbind]
  exact ⟨by decide, trivial, trivial, trivial⟩

/-- The witness of C8: a request whose body is cut short, as in `TestCreateArticle_BadJSON`. -/
theorem CreateArticle_handler_bad_body_witness :
    ((httpadapter.NewArticleHandler (usecase.NewArticleService helloStub.repo)).CreateArticle
        ⟨Except.error (GoError.new 9 "unexpected EOF"), fun _ => "", context.Background⟩
        ⟨(), [], []⟩).1 =
      ⟨400, httpadapter.Body.H [("error", "invalid request body")]⟩ :=
  (CreateArticle_handler_bad_body
    (httpadapter.NewArticleHandler (usecase.NewArticleService helloStub.repo))
    ⟨Except.error (GoError.new 9 "unexpected EOF"), fun _ => "", context.Background⟩
    ⟨(), [], []⟩ (GoError.new 9 "unexpected EOF") rfl).1

/-- C9: when the request decodes and the call of the service returns article `a` with a nil
error, `CreateArticle` answers 201, and when the path segment parses and the call of the
service returns `a` with a nil error, `GetArticle` answers 200; in both cases the body is the
object with exactly the three fields `id`, `title` and `created_at`, equal to those of `a`. -/
theorem handler_success_response {σ : Type} (h : httpadapter.ArticleHandler σ)
    (c : httpadapter.GinContext) (w : World σ) (a : domain.Article) :
    (∀ req, c.bindJSON = Except.ok req →
      (h.service.CreateArticle c.requestContext req.Title w).1 = (a, none) →
      (h.CreateArticle c w).1 =
        ⟨201, httpadapter.Body.article ⟨a.ID, a.Title, a.CreatedAt⟩⟩) ∧
    (∀ id, strconv.ParseInt (c.Param "id") = (id, none) →
      (h.service.GetArticle c.requestContext id w).1 = (a, none) →
      (h.GetArticle c w).1 =
        ⟨200, httpadapter.Body.article ⟨a.ID, a.Title, a.CreatedAt⟩⟩) := by
  constructor
  · intro req hbind hsvc
    unfold httpadapter.ArticleHandler.CreateArticle
    simp only [hbind, hsvc]
    rfl
  · intro id hp hsvc
    unfold httpadapter.ArticleHandler.GetArticle
    simp only [hp, hsvc]
    rfl

/-- The witness of C9, on a stub that saves every article as article 1 and knows article 42,
after `TestCreateArticle_Success` and `TestGetArticle_Success`. -/
theorem handler_success_response_witness :
    ((httpadapter.NewArticleHandler (usecase.NewArticleService helloStub.repo)).CreateArticle
        ⟨Except.ok ⟨"Hello"⟩, fun _ => "42", context.Background⟩ ⟨(), [], []⟩).1 =
      ⟨201, httpadapter.Body.article ⟨1, "Hello", time.Time.mk 1⟩⟩ ∧
    ((httpadapter.NewArticleHandler (usecase.NewArticleService helloStub.repo)).GetArticle
        ⟨Except.ok ⟨"Hello"⟩, fun _ => "42", context.Background⟩ ⟨(), [], []⟩).1 =
      ⟨200, httpadapter.Body.article ⟨42, "Hello", time.Time.mk 1⟩⟩ :=
  ⟨(handler_success_response
      (httpadapter.NewArticleHandler (usecase.NewArticleService helloStub.repo))
      ⟨Except.ok ⟨"Hello"⟩, fun _ => "42", context.Background⟩ ⟨(), [], []⟩
      ⟨1, "Hello", time.Time.mk 1⟩).1 ⟨"Hello"⟩ rfl (by decide),
   (handler_success_response
      (httpadapter.NewArticleHandler (usecase.NewArticleService helloStub.repo))
      ⟨Except.ok ⟨"Hello"⟩, fun _ => "42", context.Background⟩ ⟨(), [], []⟩
      ⟨42, "Hello", time.Time.mk 1⟩).2 42 (by decide) (by decide)⟩

/-! ## The round trip through the service and the storage adapter -/

/-- The instant read from the wall clock is not the zero instant, also after it is cut to
microseconds. -/
theorem Now_toMicros_not_zero (unixNano : Nat) :
    (time.Now unixNano).toMicros.IsZero = false := by
  simp only [time.Now, time.Time.toMicros, time.Time.IsZero, time.unixToInternal]
  simp only [beq_eq_false_iff_ne, ne_eq]
  omega

/-- A context derived with a timeout from a live context is live, and its deadline does not
pass during a call that is shorter than the timeout and than the time left to the parent. -/
theorem WithTimeout_live (ctx : context.Context) (d L : Nat) (hc : ctx.err = none)
    (hd : L < d) (hr : ∀ r, ctx.remaining = some r → L < r) :
    (context.WithTimeout ctx d).err = none ∧
    (context.WithTimeout ctx d).expiresWithin L = false := by
  cases hrem : ctx.remaining with
  | none =>
    have h0 : ¬ d = 0 := by omega
    simp only [context.WithTimeout, context.Context.expiresWithin, hc, hrem, h0, if_false,
      decide_eq_false_iff_not, not_le, true_and]
    exact hd
  | some r =>
    have hlr := hr r hrem
    have h0 : ¬ min r d = 0 := by omega
    simp only [context.WithTimeout, context.Context.expiresWithin, hc, hrem, h0, if_false,
      decide_eq_false_iff_not, not_le, true_and]
    omega

/-- What a successful `Create` of a model without id and creation time did: the id is the next
value of the sequence, which was not in the table, and the row was appended. -/
theorem Create_of_ok (ctx : context.Context) (title : String) (m : postgres.articleModel)
    (db db1 : gorm.DB)
    (h : gorm.Create db ctx ⟨0, title, time.Time.zero⟩ = ((m, none), db1)) :
    m = ⟨((db.seq + 1 : Nat) : Int), title, time.Now db.unixNano⟩ ∧
    db1 = { rows := db.rows ++
              [⟨((db.seq + 1 : Nat) : Int), title, (time.Now db.unixNano).toMicros⟩],
            seq := db.seq + 1, unixNano := db.unixNano, fault := db.fault,
            latency := db.latency } ∧
    db.rows.find? (fun row => row.ID == ((db.seq + 1 : Nat) : Int)) = none := by
  unfold gorm.Create at h
  split at h
  · simp at h
  · split at h
    · simp at h
    · rename_i hf
      split at h
      · simp at h
      · simp only [time.Time.zero, time.Time.IsZero, show ((0 : Int) == 0) = true from rfl,
          if_true] at h
        split at h
        · simp at h
        · simp only [gorm.DB.lookup] at h
          split at h
          · simp at h
          · rename_i hl
            simp only [Prod.mk.injEq, and_true] at h
            refine ⟨h.1.symm, ?_, hl⟩
            rw [← h.2, hf]

/-- What a successful `Save` did, in the terms of `Create_of_ok`. -/
theorem Save_of_ok (ctx : context.Context) (article a : domain.Article) (db db1 : gorm.DB)
    (h : postgres.Save ctx article db = ((a, none), db1)) :
    a = ⟨((db.seq + 1 : Nat) : Int), article.Title, time.Now db.unixNano⟩ ∧
    db1 = { rows := db.rows ++
              [⟨((db.seq + 1 : Nat) : Int), article.Title, (time.Now db.unixNano).toMicros⟩],
            seq := db.seq + 1, unixNano := db.unixNano, fault := db.fault,
            latency := db.latency } ∧
    db.rows.find? (fun row => row.ID == ((db.seq + 1 : Nat) : Int)) = none := by
  simp only [postgres.Save] at h
  generalize hr : gorm.Create db (context.WithTimeout ctx postgres.queryTimeout)
    ⟨0, article.Title, time.Time.zero⟩ = r at h
  obtain ⟨⟨m, e⟩, d⟩ := r
  cases e with
  | some e => simp at h
  | none =>
    simp only [Prod.mk.injEq, and_true] at h
    obtain ⟨hm, hd, hl⟩ := Create_of_ok _ article.Title m db d hr
    refine ⟨?_, ?_, hl⟩
    · rw [← h.1, hm]
    · rw [← h.2, hd]

/-- A `GetByID` on a live context and a reachable store that answers before the timeout of the
query and the deadline of the context returns the row with that id. -/
theorem GetByID_of_row (ctx : context.Context) (id : Int) (db : gorm.DB)
    (row : postgres.articleModel) (hc : ctx.err = none) (hf : db.fault = none)
    (hq : db.latency < postgres.queryTimeout)
    (hr : ∀ r, ctx.remaining = some r → db.latency < r)
    (hl : db.lookup id = some row) :
    postgres.GetByID ctx id db = ((⟨row.ID, row.Title, row.CreatedAt⟩, none), db) := by
  obtain ⟨h1, h2⟩ := WithTimeout_live ctx postgres.queryTimeout db.latency hc hq hr
  simp only [postgres.GetByID, gorm.First, h1, hf, h2, hl]
  rfl

/-- What `CreateArticle` on the postgres repository did when it returned a nil error: the
article has the trimmed title and an id that is positive, and its row is in the table. -/
theorem CreateArticle_postgres_of_ok (ctx : context.Context) (t : String)
    (w w1 : World gorm.DB) (a : domain.Article)
    (h : (usecase.NewArticleService postgres.NewArticleRepository).CreateArticle ctx t w =
      ((a, none), w1)) :
    a.Title = strings.TrimSpace t ∧ 0 < a.ID ∧
    w1.store.lookup a.ID =
      some ⟨a.ID, strings.TrimSpace t, (time.Now w.store.unixNano).toMicros⟩ ∧
    w1.store.fault = w.store.fault ∧ w1.store.latency = w.store.latency := by
  unfold usecase.ArticleService.CreateArticle at h
  cases hn : (domain.NewArticle t).2 with
  | some e =>
    simp [hn] at h
  | none =>
    have ha := NewArticle_of_ok t hn
    simp only [ha, World.callSave, World.record, usecase.NewArticleService,
      postgres.NewArticleRepository] at h
    generalize hs : postgres.Save ctx ⟨0, strings.TrimSpace t, time.Time.zero⟩ w.store = r at h
    obtain ⟨⟨a1, e⟩, d⟩ := r
    cases e with
    | some e => simp at h
    | none =>
      simp only [Prod.mk.injEq, and_true] at h
      obtain ⟨hm, hd, hl⟩ := Save_of_ok ctx _ a1 w.store d hs
      obtain ⟨h1, h2⟩ := h
      subst h1
      simp only at hm
      have hstore : w1.store = d := by rw [← h2]
      rw [hstore]
      refine ⟨by rw [hm], by rw [hm]; simp only; omega, ?_, by rw [hd], by rw [hd]⟩
      rw [hd, hm]
      simp only [gorm.DB.lookup, List.find?_append, hl, Option.none_or, List.find?_cons,
        beq_self_eq_true]

/-- C10, as stated, fails: after `CreateArticle` on an empty table has returned article 1 with a
nil error, the `GetArticle` of that id returns an error when the context has been cancelled in
between, when the store has become unreachable in between, and when the store takes the three
seconds of the timeout of the query to answer. -/
theorem GetArticle_after_CreateArticle_fails :
    (usecase.NewArticleService postgres.NewArticleRepository).CreateArticle
        context.Background "  Hello  " ⟨⟨[], 0, 1700000000000000123, none, 1000000⟩, [], []⟩ =
      ((⟨1, "Hello", time.Now 1700000000000000123⟩, none),
        ⟨⟨[⟨1, "Hello", (time.Now 1700000000000000123).toMicros⟩], 1,
            1700000000000000123, none, 1000000⟩,
          [Call.svcCreateArticle "  Hello  ", Call.repoSave ⟨0, "Hello", time.Time.zero⟩],
          []⟩) ∧
    ((usecase.NewArticleService postgres.NewArticleRepository).GetArticle
        ⟨some context.Canceled, none⟩ 1
        ⟨⟨[⟨1, "Hello", (time.Now 1700000000000000123).toMicros⟩], 1,
            1700000000000000123, none, 1000000⟩, [], []⟩).1 =
      (domain.Article.zero,
        some (GoError.wrap "get article by id 1: context canceled" context.Canceled)) ∧
    ((usecase.NewArticleService postgres.NewArticleRepository).GetArticle
        context.Background 1
        ⟨⟨[⟨1, "Hello", (time.Now 1700000000000000123).toMicros⟩], 1,
            1700000000000000123, some (GoError.new 50 "connection refused"), 1000000⟩,
          [], []⟩).1 =
      (domain.Article.zero,
        some (GoError.wrap "get article by id 1: connection refused"
          (GoError.new 50 "connection refused"))) ∧
    ((usecase.NewArticleService postgres.NewArticleRepository).GetArticle
        context.Background 1
        ⟨⟨[⟨1, "Hello", (time.Now 1700000000000000123).toMicros⟩], 1,
            1700000000000000123, none, 3000000000⟩, [], []⟩).1 =
      (domain.Article.zero,
        some (GoError.wrap "get article by id 1: context deadline exceeded"
          context.DeadlineExceeded)) := by
  decide

/-- C10, amended: on the service over the postgres repository, when `CreateArticle(ctx, t)` has
returned article `a` and a nil error, a later `GetArticle` of `a.ID` returns a nil error and an
article with the id and the title of `a`, that title being the trimmed `t`, and with a creation
time that is not zero, provided that at that call the context is not done, the store is
reachable and answers before the timeout of the query and the deadline of the context, and the
row of `a` is as `CreateArticle` left it. -/
theorem CreateArticle_GetArticle_roundtrip (ctx ctx2 : context.Context) (t : String)
    (w w1 w2 : World gorm.DB) (a : domain.Article)
    (h : (usecase.NewArticleService postgres.NewArticleRepository).CreateArticle ctx t w =
      ((a, none), w1))
    (hrow : w2.store.lookup a.ID = w1.store.lookup a.ID)
    (hctx : ctx2.err = none)
    (hreach : w2.store.fault = none)
    (hquery : w2.store.latency < postgres.queryTimeout)
    (hdeadline : ∀ r, ctx2.remaining = some r → w2.store.latency < r) :
    ∃ b w3,
      (usecase.NewArticleService postgres.NewArticleRepository).GetArticle ctx2 a.ID w2 =
        ((b, none), w3) ∧
      b.ID = a.ID ∧ b.Title = a.Title ∧ a.Title = strings.TrimSpace t ∧
      b.CreatedAt.IsZero = false := by
  obtain ⟨htitle, hpos, hlook, _, _⟩ := CreateArticle_postgres_of_ok ctx t w w1 a h
  have hpos1 : ¬ a.ID ≤ 0 := by omega
  rw [hlook] at hrow
  have hget := GetByID_of_row ctx2 a.ID w2.store _ hctx hreach hquery hdeadline hrow
  refine ⟨⟨a.ID, strings.TrimSpace t, (time.Now w.store.unixNano).toMicros⟩,
    { store := w2.store,
      calls := w2.calls ++ [Call.svcGetArticle a.ID, Call.repoGetByID a.ID],
      log := w2.log }, ?_, rfl, htitle.symm, htitle, Now_toMicros_not_zero _⟩
  unfold usecase.ArticleService.GetArticle
  simp only [hpos1, if_false, World.callGetByID, World.record, usecase.NewArticleService,
    postgres.NewArticleRepository, hget, List.append_assoc, List.singleton_append]

/-- The witness of C10: the title `  Hello  ` on an empty table, and the `GetArticle` of the new
id in the state that `CreateArticle` left, with the same context. -/
theorem CreateArticle_GetArticle_roundtrip_witness :
    ∃ b w3,
      (usecase.NewArticleService postgres.NewArticleRepository).GetArticle
          context.Background 1
          ⟨⟨[⟨1, "Hello", (time.Now 1700000000000000123).toMicros⟩], 1,
              1700000000000000123, none, 1000000⟩,
            [Call.svcCreateArticle "  Hello  ",
              Call.repoSave ⟨0, "Hello", time.Time.zero⟩], []⟩ =
        ((b, none), w3) ∧
      b.ID = 1 ∧ b.Title = "Hello" ∧ "Hello" = strings.TrimSpace "  Hello  " ∧
      b.CreatedAt.IsZero = false :=
  CreateArticle_GetArticle_roundtrip context.Background context.Background "  Hello  "
    ⟨⟨[], 0, 1700000000000000123, none, 1000000⟩, [], []⟩
    ⟨⟨[⟨1, "Hello", (time.Now 1700000000000000123).toMicros⟩], 1,
        1700000000000000123, none, 1000000⟩,
      [Call.svcCreateArticle "  Hello  ", Call.repoSave ⟨0, "Hello", time.Time.zero⟩], []⟩
    ⟨⟨[⟨1, "Hello", (time.Now 1700000000000000123).toMicros⟩], 1,
        1700000000000000123, none, 1000000⟩,
      [Call.svcCreateArticle "  Hello  ", Call.repoSave ⟨0, "Hello", time.Time.zero⟩], []⟩
    ⟨1, "Hello", time.Now 1700000000000000123⟩
    (by decide) rfl rfl rfl (by decide) (by decide)

/-! ## Claims about the router -/

/-- The route of `GET /healthz` in the engine of `NewRouter`: the third one, without
parameters. -/
theorem NewRouter_serves_healthz {σ : Type} (h : httpadapter.ArticleHandler σ)
    (hc : Option (context.Context → σ → Option GoError × σ)) (req : gin.Request) (w : World σ)
    (hm : req.Method = "GET") (hp : req.Path = "/healthz") :
    (server.NewRouter h hc).ServeHTTP req w =
      some (server.healthz
        (match hc with
          | none => fun _ st => (none, st)
          | some f => f)
        { bindJSON := req.bindJSONWithin (some (1 <<< 20)),
          Param := fun key => (([] : List (String × String)).lookup key).getD "",
          requestContext := req.ctx } w) := by
  have hseg : gin.pathSegments "/healthz" = some ["healthz"] := by decide
  have h1 : ¬ ("POST" = "GET") := by decide
  have h2 : gin.matchPattern [gin.Segment.lit "article", gin.Segment.param "id"] ["healthz"]
      = none := by decide
  have h3 : gin.matchPattern [gin.Segment.lit "healthz"] ["healthz"] = some [] := by decide
  simp only [gin.Engine.ServeHTTP, server.NewRouter, hp, hm, hseg, gin.findRoute, h1, h2, h3,
    if_true, if_false]

/-- C11: on the engine of `NewRouter`, `GET /healthz` answers 200 with the body whose only key is
`status`, with value `ok`, when the callback returns a nil error; 503 with the body of
`status`, `degraded`, and `db_error`, the message of the error, when the callback returns an
error; and 200 with the body of `status`, `ok`, for every request when the callback is nil. -/
theorem healthz_contract {σ : Type} (h : httpadapter.ArticleHandler σ)
    (hc : Option (context.Context → σ → Option GoError × σ)) (req : gin.Request) (w : World σ)
    (hm : req.Method = "GET") (hp : req.Path = "/healthz") :
    (∀ f, hc = some f →
      (f (context.WithTimeout req.ctx server.healthCheckTimeout) w.store).1 = none →
      (server.NewRouter h hc).ServeHTTP req w =
        some (⟨200, httpadapter.Body.H [("status", "ok")]⟩,
          { w with store :=
              (f (context.WithTimeout req.ctx server.healthCheckTimeout) w.store).2 }) ∧
      [("status", "ok")].lookup "db_error" = none) ∧
    (∀ f err, hc = some f →
      (f (context.WithTimeout req.ctx server.healthCheckTimeout) w.store).1 = some err →
      (server.NewRouter h hc).ServeHTTP req w =
        some (⟨503, httpadapter.Body.H [("status", "degraded"), ("db_error", err.Error)]⟩,
          { w with store :=
              (f (context.WithTimeout req.ctx server.healthCheckTimeout) w.store).2 })) ∧
    (hc = none →
      (server.NewRouter h hc).ServeHTTP req w =
        some (⟨200, httpadapter.Body.H [("status", "ok")]⟩, w)) := by
  rw [NewRouter_serves_healthz h hc req w hm hp]
  refine ⟨?_, ?_, ?_⟩
  · intro f hf hnil
    subst hf
    refine ⟨?_, by decide⟩
    simp only [server.healthz, hnil]
    rfl
  · intro f err hf herr
    subst hf
    simp only [server.healthz, herr]
    rfl
  · intro hnone
    subst hnone
    rfl

/-- The witness of C11, with the callbacks of `TestHealthz_OK` and `TestHealthz_DBError` and
with a nil callback. -/
theorem healthz_contract_witness :
    (server.NewRouter (httpadapter.NewArticleHandler (usecase.NewArticleService helloStub.repo))
        (some (fun _ st => (none, st)))).ServeHTTP
        ⟨"GET", "/healthz", fun _ => Except.ok ⟨""⟩, context.Background⟩ ⟨(), [], []⟩ =
      some (⟨200, httpadapter.Body.H [("status", "ok")]⟩, ⟨(), [], []⟩) ∧
    (server.NewRouter (httpadapter.NewArticleHandler (usecase.NewArticleService helloStub.repo))
        (some (fun _ st => (some (GoError.new 8 "db unavailable"), st)))).ServeHTTP
        ⟨"GET", "/healthz", fun _ => Except.ok ⟨""⟩, context.Background⟩ ⟨(), [], []⟩ =
      some (⟨503, httpadapter.Body.H [("status", "degraded"), ("db_error", "db unavailable")]⟩,
        ⟨(), [], []⟩) ∧
    (server.NewRouter (httpadapter.NewArticleHandler (usecase.NewArticleService helloStub.repo))
        none).ServeHTTP
        ⟨"GET", "/healthz", fun _ => Except.ok ⟨""⟩, context.Background⟩ ⟨(), [], []⟩ =
      some (⟨200, httpadapter.Body.H [("status", "ok")]⟩, ⟨(), [], []⟩) :=
  ⟨((healthz_contract
      (httpadapter.NewArticleHandler (usecase.NewArticleService helloStub.repo))
      (some (fun _ st => (none, st)))
      ⟨"GET", "/healthz", fun _ => Except.ok ⟨""⟩, context.Background⟩ ⟨(), [], []⟩
      rfl rfl).1 (fun _ st => (none, st)) rfl rfl).1,
   (healthz_contract
      (httpadapter.NewArticleHandler (usecase.NewArticleService helloStub.repo))
      (some (fun _ st => (some (GoError.new 8 "db unavailable"), st)))
      ⟨"GET", "/healthz", fun _ => Except.ok ⟨""⟩, context.Background⟩ ⟨(), [], []⟩
      rfl rfl).2.1 (fun _ st => (some (GoError.new 8 "db unavailable"), st))
      (GoError.new 8 "db unavailable") rfl rfl,
   (healthz_contract
      (httpadapter.NewArticleHandler (usecase.NewArticleService helloStub.repo))
      none
      ⟨"GET", "/healthz", fun _ => Except.ok ⟨""⟩, context.Background⟩ ⟨(), [], []⟩
      rfl rfl).2.2 rfl⟩

/-! ## Claims about the storage adapter -/

/-- C12: with `r` the result of the call `First` that `GetByID` makes on the store: when the
error of `r` matches `gorm.ErrRecordNotFound`, `GetByID` returns the zero article and
`ErrArticleNotFound` itself; when `r` has any other error `e`, it returns the zero article and
an error that wraps `e`, whose message is `get article by id`, the id in decimal, a colon and
the message of `e`, that is none of the four domain errors and matches a domain error only if
`e` does; and it returns a nil error exactly when `r` has none, with the id, the title and the
creation time of the row. -/
theorem GetByID_contract (ctx : context.Context) (id : Int) (db : gorm.DB) :
    (∀ e, (gorm.First db (context.WithTimeout ctx postgres.queryTimeout)
          ⟨0, "", time.Time.zero⟩ id).1.2 = some e →
        errors.Is e gorm.ErrRecordNotFound = true →
      (postgres.GetByID ctx id db).1 =
        (domain.Article.zero, some domain.ErrArticleNotFound)) ∧
    (∀ e, (gorm.First db (context.WithTimeout ctx postgres.queryTimeout)
          ⟨0, "", time.Time.zero⟩ id).1.2 = some e →
        errors.Is e gorm.ErrRecordNotFound = false →
      ∃ msg,
        (postgres.GetByID ctx id db).1 = (domain.Article.zero, some (GoError.wrap msg e)) ∧
        msg = "get article by id " ++ toString id ++ ": " ++ e.Error ∧
        (toString id).data <:+: msg.data ∧
        GoError.wrap msg e ≠ domain.ErrArticleNotFound ∧
        GoError.wrap msg e ≠ domain.ErrInvalidID ∧
        GoError.wrap msg e ≠ domain.ErrInvalidTitle ∧
        GoError.wrap msg e ≠ domain.ErrTitleTooLong ∧
        (∀ target, errors.Is (GoError.wrap msg e) target = errors.Is e target)) ∧
    ((gorm.First db (context.WithTimeout ctx postgres.queryTimeout)
          ⟨0, "", time.Time.zero⟩ id).1.2 = none →
      (postgres.GetByID ctx id db).1 =
        (⟨(gorm.First db (context.WithTimeout ctx postgres.queryTimeout)
              ⟨0, "", time.Time.zero⟩ id).1.1.ID,
          (gorm.First db (context.WithTimeout ctx postgres.queryTimeout)
              ⟨0, "", time.Time.zero⟩ id).1.1.Title,
          (gorm.First db (context.WithTimeout ctx postgres.queryTimeout)
              ⟨0, "", time.Time.zero⟩ id).1.1.CreatedAt⟩, none)) ∧
    ((postgres.GetByID ctx id db).1.2 = none →
      (gorm.First db (context.WithTimeout ctx postgres.queryTimeout)
          ⟨0, "", time.Time.zero⟩ id).1.2 = none) := by
  simp only [postgres.GetByID]
  generalize gorm.First db (context.WithTimeout ctx postgres.queryTimeout)
    ⟨0, "", time.Time.zero⟩ id = r
  obtain ⟨⟨m, e0⟩, d⟩ := r
  refine ⟨?_, ?_, ?_, ?_⟩
  · intro e he hnf
    simp only at he
    subst he
    simp only [hnf, if_true]
  · intro e he hnf
    simp only at he
    subst he
    refine ⟨"get article by id " ++ toString id ++ ": " ++ e.Error, ?_, rfl, ?_,
      by simp [domain.ErrArticleNotFound], by simp [domain.ErrInvalidID],
      by simp [domain.ErrInvalidTitle], by simp [domain.ErrTitleTooLong], fun _ => rfl⟩
    · simp only [hnf, fmt.Errorf_w, String.append_assoc]
      rfl
    · refine ⟨"get article by id ".data, (": " ++ e.Error).data, ?_⟩
      simp only [String.data_append, List.append_assoc]
  · intro he
    simp only at he
    subst he
    rfl
  · intro hres
    cases e0 with
    | none => rfl
    | some e =>
      simp only at hres
      split at hres <;> simp at hres

/-- The witness of C12: id 404 on an empty table, as in
`TestArticleRepository_GetByID_NotFound`; id 7 on a store that cannot be reached; and id 1 on a
table with that row. -/
theorem GetByID_contract_witness :
    (postgres.GetByID context.Background 404 ⟨[], 0, 0, none, 0⟩).1 =
      (domain.Article.zero, some domain.ErrArticleNotFound) ∧
    (postgres.GetByID context.Background 7
        ⟨[], 0, 0, some (GoError.new 50 "connection refused"), 0⟩).1 =
      (domain.Article.zero,
        some (GoError.wrap "get article by id 7: connection refused"
          (GoError.new 50 "connection refused"))) ∧
    (postgres.GetByID context.Background 1
        ⟨[⟨1, "Hello", time.Now 1000⟩], 1, 2000, none, 0⟩).1 =
      (⟨1, "Hello", time.Now 1000⟩, none) :=
  ⟨(GetByID_contract context.Background 404 ⟨[], 0, 0, none, 0⟩).1
      gorm.ErrRecordNotFound (by decide) (by decide),
   by
    obtain ⟨msg, h1, h2, _⟩ :=
      (GetByID_contract context.Background 7
        ⟨[], 0, 0, some (GoError.new 50 "connection refused"), 0⟩).2.1
        (GoError.new 50 "connection refused") (by decide) (by decide)
    rw [h1, h2]
    decide,
   (GetByID_contract context.Background 1
      ⟨[⟨1, "Hello", time.Now 1000⟩], 1, 2000, none, 0⟩).2.2.1 (by decide)⟩

/-! ## Idempotence of the normalisation -/

/-- C13: when `NewArticle t` returns article `a` and a nil error, `NewArticle a.Title` returns
`a` and a nil error again. -/
theorem NewArticle_idempotent (t : String) (a : domain.Article)
    (h : domain.NewArticle t = (a, none)) :
    domain.NewArticle a.Title = (a, none) := by
  have hok : (domain.NewArticle t).2 = none := by rw [h]
  have ha := NewArticle_of_ok t hok
  rw [h] at ha
  have hat : a = ⟨0, strings.TrimSpace t, time.Time.zero⟩ := congrArg Prod.fst ha
  have ht := NewArticle_eq t
  rw [h] at ht
  subst hat
  simp only
  rw [NewArticle_eq, TrimSpace_idempotent]
  exact ht.symm

/-- The witness of C13: the title `  Hello  `, normalised to `Hello`. -/
theorem NewArticle_idempotent_witness :
    domain.NewArticle (domain.Article.mk 0 "Hello" time.Time.zero).Title =
      (⟨0, "Hello", time.Time.zero⟩, none) :=
  NewArticle_idempotent "  Hello  " ⟨0, "Hello", time.Time.zero⟩ (by decide)

/-! ## The message of the answers 400 and 404 -/

/-- C14, as stated, fails: `ErrArticleNotFound` wrapped by `fmt.Errorf` with the text `repo: `
in front is answered with 404, and the message of the body is the message of the wrapper,
`repo: article not found`, which is none of the four texts of the domain errors. -/
theorem handleError_wrapped_message :
    httpadapter.handleError (fmt.Errorf_w "repo: " domain.ErrArticleNotFound) =
      ⟨404, httpadapter.Body.H [("error", "repo: article not found")]⟩ ∧
    "repo: article not found" ≠ "article not found" ∧
    "repo: article not found" ≠ "id must be a positive integer" ∧
    "repo: article not found" ≠ "title is required" ∧
    "repo: article not found" ≠ "title must be at most 140 characters" := by
  decide

/-- C14, amended: `handleError` answers with 400 or 404 exactly the errors that match one of the
four domain errors; for every such error `e` the body is the one whose `error` is `e.Error()`,
the message of `e` itself; and that message is the text of the domain error when `e` is one of
the four domain errors itself. -/
theorem handleError_message (e : GoError) :
    (((httpadapter.handleError e).status = 400 ∨ (httpadapter.handleError e).status = 404) ↔
      (errors.Is e domain.ErrInvalidTitle = true ∨ errors.Is e domain.ErrInvalidID = true ∨
        errors.Is e domain.ErrTitleTooLong = true ∨
        errors.Is e domain.ErrArticleNotFound = true)) ∧
    (((httpadapter.handleError e).status = 400 ∨ (httpadapter.handleError e).status = 404) →
      (httpadapter.handleError e).body = httpadapter.Body.H [("error", e.Error)]) ∧
    (e = domain.ErrInvalidTitle → e.Error = "title is required") ∧
    (e = domain.ErrTitleTooLong → e.Error = "title must be at most 140 characters") ∧
    (e = domain.ErrInvalidID → e.Error = "id must be a positive integer") ∧
    (e = domain.ErrArticleNotFound → e.Error = "article not found") := by
  refine ⟨?_, ?_, ?_, ?_, ?_, ?_⟩
  · unfold httpadapter.handleError
    by_cases h1 : (errors.Is e domain.ErrInvalidTitle || errors.Is e domain.ErrInvalidID ||
        errors.Is e domain.ErrTitleTooLong) = true
    · rw [if_pos h1]
      simp only [Bool.or_eq_true] at h1
      constructor
      · intro _
        rcases h1 with (h1 | h1) | h1
        · exact Or.inl h1
        · exact Or.inr (Or.inl h1)
        · exact Or.inr (Or.inr (Or.inl h1))
      · intro _
        exact Or.inl rfl
    · rw [if_neg h1]
      simp only [Bool.or_eq_true, not_or] at h1
      by_cases h2 : errors.Is e domain.ErrArticleNotFound = true
      · rw [if_pos h2]
        exact ⟨fun _ => Or.inr (Or.inr (Or.inr h2)), fun _ => Or.inr rfl⟩
      · rw [if_neg h2]
        constructor
        · intro h
          rcases h with h | h <;> exact absurd h (by decide)
        · intro h
          rcases h with h | h | h | h
          · exact absurd h h1.1.1
          · exact absurd h h1.1.2
          · exact absurd h h1.2
          · exact absurd h h2
  · intro h
    unfold httpadapter.handleError at h ⊢
    split
    · rfl
    · rename_i h1
      rw [if_neg h1] at h
      split
      · rfl
      · rename_i h2
        rw [if_neg h2] at h
        rcases h with h | h <;> exact absurd h (by decide)
  all_goals
    intro he
    subst he
    rfl

/-- The witness of C14: `ErrInvalidTitle` itself is answered with its own text. -/
theorem handleError_message_witness :
    (httpadapter.handleError domain.ErrInvalidTitle).body =
      httpadapter.Body.H [("error", "title is required")] :=
  (handleError_message domain.ErrInvalidTitle).2.1 (Or.inl (by decide))
